import Mathlib

/-!
# NAPT translation core of `examples/nat/translation.go`

A shallow embedding of the two translators `PublicToPrivateTranslation` and
`PrivateToPublicTranslation` and of `allocateNewEgressConnection`, with the
process-wide `table` and `portmap` passed explicitly as a `NatState`.  The
checksum test helper `CheckPacketChecksums` of `test_cksum/common` is embedded
at the end of the definitions.

Conventions of the embedding

* Machine integers are natural numbers; the 16-bit byte swap and the
  conversion `uint16(..)` reduce modulo `2^16` explicitly.
* `time.Time` and `time.Duration` are integers on one axis (nanoseconds);
  `a.Add(d).After(b)` is `b < a + d`.  One call reads one instant `now`.
* `sync.Map` is a partial function from keys to values: `Load` is application,
  `Store` and `Delete` are point updates.
* The L4 headers of a packet are separate records; a translator only reads and
  writes the header of the protocol it dispatched on.
* The calls are sequential: the mutex is not modelled.
* A call that does not return a value ends in a `Fault`: the run-time panic of
  an index into `table` outside its length, or a port allocator that hands
  back no port.
* `allocNewPort` and `deleteOldConnection` are called by the translators but
  are defined outside `translation.go`.  The translators take them as
  arguments (`allocPort`, `deleteConn`); `allocNewPort` and
  `deleteOldConnection` below are the instances described by the design text.
-/

namespace NAT

/-! ## Data model -/

/-- Endpoint tuple `Tuple{addr uint32, port uint16}`. -/
structure Tuple where
  addr : Nat
  port : Nat
  deriving DecidableEq, Repr

/-- The sentinel `EMPTY_ENTRY`. -/
def EMPTY_ENTRY : Tuple := { addr := 0, port := 0 }

/-- One slot of `portmap[protocol][port]`: the two fields the translators use. -/
structure PortMapEntry where
  lastused : Int
  addr : Nat
  deriving DecidableEq, Repr

/-- The session table `table []sync.Map`, indexed by protocol number. -/
abbrev Table := Nat → Tuple → Option Tuple

/-- The port usage registry `portmap[protocol][port]`. -/
abbrev PortMap := Nat → Nat → PortMapEntry

/-- The process-wide mutable state read and written by the translators. -/
structure NatState where
  table : Table
  portmap : PortMap

/-- Ethernet header fields used by the translators. -/
structure EtherHdr where
  DAddr : List Nat
  SAddr : List Nat
  EtherType : Nat
  deriving DecidableEq, Repr

/-- IPv4 header fields used by the translators. -/
structure IPv4Hdr where
  VersionIhl : Nat
  NextProtoID : Nat
  SrcAddr : Nat
  DstAddr : Nat
  deriving DecidableEq, Repr

/-- TCP header fields used by the translators. -/
structure TCPHdr where
  SrcPort : Nat
  DstPort : Nat
  deriving DecidableEq, Repr

/-- UDP header fields used by the translators. -/
structure UDPHdr where
  SrcPort : Nat
  DstPort : Nat
  deriving DecidableEq, Repr

/-- ICMP header fields used by the translators. -/
structure ICMPHdr where
  Identifier : Nat
  deriving DecidableEq, Repr

/-- The packet handle `*packet.Packet`, restricted to the fields in use. -/
structure Packet where
  Ether : EtherHdr
  IPv4 : IPv4Hdr
  TCP : TCPHdr
  UDP : UDPHdr
  ICMP : ICMPHdr
  deriving DecidableEq, Repr

/-- The read-only configuration: `Natconfig`, `PublicMAC`, `PrivateMAC` and
the constant `CONNECTION_TIMEOUT`. -/
structure Config where
  publicAddr : Nat
  publicDstMAC : List Nat
  privateDstMAC : List Nat
  PublicMAC : List Nat
  PrivateMAC : List Nat
  CONNECTION_TIMEOUT : Int

/-! ## Constants and helpers of the packages `common` and `packet` -/

/-- Modelled from the spec: `common.IPV4Number` is declared outside the given
sources; it is the EtherType of the "IPv4 Ethernet payloads", 0x0800. -/
def IPV4Number : Nat := 0x0800

/-- Modelled from the spec: `common.ICMPNumber` is declared outside the given
sources; it is the transport protocol number of ICMP, 1. -/
def ICMPNumber : Nat := 1

/-- Modelled from the spec: `common.TCPNumber` is declared outside the given
sources; it is the transport protocol number of TCP, 6. -/
def TCPNumber : Nat := 6

/-- Modelled from the spec: `common.UDPNumber` is declared outside the given
sources; it is the transport protocol number of UDP, 17. -/
def UDPNumber : Nat := 17

/-- Modelled from the spec: `packet.SwapBytesUint16` is defined outside the
given sources; it is the byte swap of a 16-bit value that converts between
wire order and host order. -/
def SwapBytesUint16 (x : Nat) : Nat := (x % 256) * 256 + (x / 256) % 256

/-- The Go conversion `uint16(n)` of an integer. -/
def toUint16 (n : Int) : Nat := (n % 65536).toNat

/-! ## Session table and registry primitives -/

/-- The call `table[protocol].Store(key, value)`. -/
def Table.store (t : Table) (protocol : Nat) (key value : Tuple) : Table :=
  fun p k => if p = protocol ∧ k = key then some value else t p k

/-- The call `table[protocol].Delete(key)`. -/
def Table.delete (t : Table) (protocol : Nat) (key : Tuple) : Table :=
  fun p k => if p = protocol ∧ k = key then none else t p k

/-- The assignment `portmap[protocol][port].lastused = now`. -/
def PortMap.setLastused (m : PortMap) (protocol port : Nat) (now : Int) : PortMap :=
  fun p q => if p = protocol ∧ q = port then { m p q with lastused := now } else m p q

/-- The assignment `portmap[protocol][port].addr = a`. -/
def PortMap.setAddr (m : PortMap) (protocol port : Nat) (a : Nat) : PortMap :=
  fun p q => if p = protocol ∧ q = port then { m p q with addr := a } else m p q

/-- The assignment `portmap[protocol][port] = e`. -/
def PortMap.setEntry (m : PortMap) (protocol port : Nat) (e : PortMapEntry) : PortMap :=
  fun p q => if p = protocol ∧ q = port then e else m p q

/-- Ways in which a call ends without returning a value. -/
inductive Fault where
  | indexOutOfRange
  | allocFailed
  deriving DecidableEq, Repr

/-- The length of `table` made by `init`: `common.UDPNumber + 1`. -/
def tableLen : Nat := UDPNumber + 1

/-- Type of the port allocator called as `allocNewPort(protocol)`: it reads the
state and the clock and either hands back an integer and the state it left, or
hands back no port (`none`): it fails or does not return. -/
abbrev AllocFn := NatState → Nat → Int → Option (Int × NatState)

/-- Type of the eviction routine called as `deleteOldConnection(protocol, port)`. -/
abbrev DeleteFn := NatState → Nat → Nat → NatState

/-! ## The functions of `translation.go` -/

/-- `allocateNewEgressConnection(protocol, privEntry, publicAddr)`: returns the
public tuple and the state after the two registry writes and the two stores. -/
def allocateNewEgressConnection (allocPort : AllocFn) (s : NatState) (protocol : Nat)
    (privEntry : Tuple) (publicAddr : Nat) (now : Int) : Except Fault (Tuple × NatState) :=
  if protocol < tableLen then
    match allocPort s protocol now with
    | none => Except.error Fault.allocFailed
    | some (port, s1) =>
      let pubEntry : Tuple := { addr := publicAddr, port := toUint16 port }
      let pm1 := s1.portmap.setLastused protocol pubEntry.port now
      let pm2 := pm1.setAddr protocol pubEntry.port publicAddr
      let t1 := s1.table.store protocol privEntry pubEntry
      let t2 := t1.store protocol pubEntry privEntry
      Except.ok (pubEntry, { table := t2, portmap := pm2 })
  else Except.error Fault.indexOutOfRange

/-- What a translator leaves behind: the returned boolean, the packet after the
in-place header writes, and the state. -/
structure Outcome where
  ret : Bool
  pkt : Packet
  st : NatState

/-- Ingress translation `PublicToPrivateTranslation(pkt, ctx)`. -/
def PublicToPrivateTranslation (cfg : Config) (deleteConn : DeleteFn) (s : NatState)
    (pkt : Packet) (now : Int) : Except Fault Outcome :=
  if pkt.Ether.EtherType = SwapBytesUint16 IPV4Number then
    let protocol := pkt.IPv4.NextProtoID
    let keyPort : Option Nat :=
      if protocol = TCPNumber then some (SwapBytesUint16 pkt.TCP.DstPort)
      else if protocol = UDPNumber then some (SwapBytesUint16 pkt.UDP.DstPort)
      else if protocol = ICMPNumber then some pkt.ICMP.Identifier
      else none
    match keyPort with
    | none => Except.ok { ret := false, pkt := pkt, st := s }
    | some port =>
      let pub2priKey : Tuple := { addr := pkt.IPv4.DstAddr, port := port }
      if protocol < tableLen then
        match s.table protocol pub2priKey with
        | none => Except.ok { ret := false, pkt := pkt, st := s }
        | some value =>
          if now < (s.portmap protocol pub2priKey.port).lastused + cfg.CONNECTION_TIMEOUT then
            let s1 : NatState :=
              { s with portmap := s.portmap.setLastused protocol pub2priKey.port now }
            let pkt1 : Packet :=
              { pkt with
                Ether := { pkt.Ether with DAddr := cfg.privateDstMAC, SAddr := cfg.PrivateMAC }
                IPv4 := { pkt.IPv4 with DstAddr := value.addr } }
            let pkt2 : Packet :=
              if pkt1.IPv4.NextProtoID = TCPNumber then
                { pkt1 with TCP := { pkt1.TCP with DstPort := SwapBytesUint16 value.port } }
              else if pkt1.IPv4.NextProtoID = UDPNumber then
                { pkt1 with UDP := { pkt1.UDP with DstPort := SwapBytesUint16 value.port } }
              else pkt1
            Except.ok { ret := true, pkt := pkt2, st := s1 }
          else
            Except.ok { ret := false, pkt := pkt, st := deleteConn s protocol pub2priKey.port }
      else Except.error Fault.indexOutOfRange
  else
    Except.ok { ret := false, pkt := pkt, st := s }

/-- Egress translation `PrivateToPublicTranslation(pkt, ctx)`. -/
def PrivateToPublicTranslation (cfg : Config) (allocPort : AllocFn) (s : NatState)
    (pkt : Packet) (now : Int) : Except Fault Outcome :=
  if pkt.Ether.EtherType = SwapBytesUint16 IPV4Number then
    let protocol := pkt.IPv4.NextProtoID
    let keyPort : Option Nat :=
      if protocol = TCPNumber then some (SwapBytesUint16 pkt.TCP.SrcPort)
      else if protocol = UDPNumber then some (SwapBytesUint16 pkt.UDP.SrcPort)
      else if protocol = ICMPNumber then some pkt.ICMP.Identifier
      else none
    match keyPort with
    | none => Except.ok { ret := false, pkt := pkt, st := s }
    | some port =>
      let pri2pubKey : Tuple := { addr := pkt.IPv4.SrcAddr, port := port }
      if protocol < tableLen then
        let translated : Except Fault (Tuple × NatState) :=
          match s.table protocol pri2pubKey with
          | none => allocateNewEgressConnection allocPort s protocol pri2pubKey cfg.publicAddr now
          | some value =>
            Except.ok (value, { s with portmap := s.portmap.setLastused protocol value.port now })
        match translated with
        | Except.error e => Except.error e
        | Except.ok (value, s1) =>
          let pkt1 : Packet :=
            { pkt with
              Ether := { pkt.Ether with DAddr := cfg.publicDstMAC, SAddr := cfg.PublicMAC }
              IPv4 := { pkt.IPv4 with SrcAddr := value.addr } }
          let pkt2 : Packet :=
            if pkt1.IPv4.NextProtoID = TCPNumber then
              { pkt1 with TCP := { pkt1.TCP with SrcPort := SwapBytesUint16 value.port } }
            else if pkt1.IPv4.NextProtoID = UDPNumber then
              { pkt1 with UDP := { pkt1.UDP with SrcPort := SwapBytesUint16 value.port } }
            else pkt1
          Except.ok { ret := true, pkt := pkt2, st := s1 }
      else Except.error Fault.indexOutOfRange
  else
    Except.ok { ret := false, pkt := pkt, st := s }

/-! ## The routines defined outside `translation.go` -/

/-- The cleared registry slot: the zero value of the slot type. -/
def PortMapEntry.cleared : PortMapEntry := { lastused := 0, addr := 0 }

/-- Modelled from the spec: `allocNewPort` is defined outside the given sources.
Section 4.2: it "returns a 16-bit port number not currently marked active in
that protocol's Port Usage Registry", the first available one of the usable
range `[portStart, portEnd)`, and fails, handing back no port, when the range
is exhausted.  A slot is marked active from binding creation until it is
cleared at eviction; the allocator changes no state. -/
def allocNewPort (portStart portEnd : Nat) : AllocFn := fun s protocol _ =>
  match (List.range' portStart (portEnd - portStart)).find?
      (fun p => decide (s.portmap protocol p = PortMapEntry.cleared)) with
  | some p => some ((p : Int), s)
  | none => none

/-- Modelled from the spec: `deleteOldConnection` is defined outside the given
sources.  Section 4.4: eviction "removes both Session Table entries for the
tuple pair rooted at this port, clears the registry slot".  The pair rooted at
a port is the public tuple made of the slot's owning address and the port,
together with the private tuple the table maps it to. -/
def deleteOldConnection : DeleteFn := fun s protocol port =>
  let pub2priKey : Tuple := { addr := (s.portmap protocol port).addr, port := port }
  let t : Table :=
    match s.table protocol pub2priKey with
    | some pri2pubKey => (s.table.delete protocol pri2pubKey).delete protocol pub2priKey
    | none => s.table
  { table := t, portmap := s.portmap.setEntry protocol port PortMapEntry.cleared }

/-! ## Vocabulary for stating the properties -/

/-- The protocol and lookup key an ingress packet is dispatched to (lines 80-105):
destination address and destination port, or ICMP identifier. -/
def ingressKey (pkt : Packet) : Option (Nat × Tuple) :=
  if pkt.Ether.EtherType = SwapBytesUint16 IPV4Number then
    if pkt.IPv4.NextProtoID = TCPNumber then
      some (TCPNumber, { addr := pkt.IPv4.DstAddr, port := SwapBytesUint16 pkt.TCP.DstPort })
    else if pkt.IPv4.NextProtoID = UDPNumber then
      some (UDPNumber, { addr := pkt.IPv4.DstAddr, port := SwapBytesUint16 pkt.UDP.DstPort })
    else if pkt.IPv4.NextProtoID = ICMPNumber then
      some (ICMPNumber, { addr := pkt.IPv4.DstAddr, port := pkt.ICMP.Identifier })
    else none
  else none

/-- The protocol and lookup key an egress packet is dispatched to (lines 163-189):
source address and source port, or ICMP identifier. -/
def egressKey (pkt : Packet) : Option (Nat × Tuple) :=
  if pkt.Ether.EtherType = SwapBytesUint16 IPV4Number then
    if pkt.IPv4.NextProtoID = TCPNumber then
      some (TCPNumber, { addr := pkt.IPv4.SrcAddr, port := SwapBytesUint16 pkt.TCP.SrcPort })
    else if pkt.IPv4.NextProtoID = UDPNumber then
      some (UDPNumber, { addr := pkt.IPv4.SrcAddr, port := SwapBytesUint16 pkt.UDP.SrcPort })
    else if pkt.IPv4.NextProtoID = ICMPNumber then
      some (ICMPNumber, { addr := pkt.IPv4.SrcAddr, port := pkt.ICMP.Identifier })
    else none
  else none

/-- A packet the translators support: IPv4 carrying TCP, UDP or ICMP. -/
def Packet.supported (pkt : Packet) : Prop :=
  pkt.Ether.EtherType = SwapBytesUint16 IPV4Number ∧
    (pkt.IPv4.NextProtoID = TCPNumber ∨ pkt.IPv4.NextProtoID = UDPNumber ∨
      pkt.IPv4.NextProtoID = ICMPNumber)

instance (pkt : Packet) : Decidable pkt.supported := by
  unfold Packet.supported; infer_instance

/-- The wire source port of a TCP or UDP packet. -/
def Packet.wireSrcPort (pkt : Packet) : Nat :=
  if pkt.IPv4.NextProtoID = TCPNumber then pkt.TCP.SrcPort else pkt.UDP.SrcPort

/-- The wire destination port of a TCP or UDP packet. -/
def Packet.wireDstPort (pkt : Packet) : Nat :=
  if pkt.IPv4.NextProtoID = TCPNumber then pkt.TCP.DstPort else pkt.UDP.DstPort

/-- The header writes of an accepted ingress packet (lines 141-152) for the
looked-up tuple `value`. -/
def ingressRewrite (cfg : Config) (pkt : Packet) (value : Tuple) : Packet :=
  let pkt1 : Packet :=
    { pkt with
      Ether := { pkt.Ether with DAddr := cfg.privateDstMAC, SAddr := cfg.PrivateMAC }
      IPv4 := { pkt.IPv4 with DstAddr := value.addr } }
  if pkt.IPv4.NextProtoID = TCPNumber then
    { pkt1 with TCP := { pkt1.TCP with DstPort := SwapBytesUint16 value.port } }
  else if pkt.IPv4.NextProtoID = UDPNumber then
    { pkt1 with UDP := { pkt1.UDP with DstPort := SwapBytesUint16 value.port } }
  else pkt1

/-- The header writes of an accepted egress packet (lines 209-220) for the
tuple `value` it is translated to. -/
def egressRewrite (cfg : Config) (pkt : Packet) (value : Tuple) : Packet :=
  let pkt1 : Packet :=
    { pkt with
      Ether := { pkt.Ether with DAddr := cfg.publicDstMAC, SAddr := cfg.PublicMAC }
      IPv4 := { pkt.IPv4 with SrcAddr := value.addr } }
  if pkt.IPv4.NextProtoID = TCPNumber then
    { pkt1 with TCP := { pkt1.TCP with SrcPort := SwapBytesUint16 value.port } }
  else if pkt.IPv4.NextProtoID = UDPNumber then
    { pkt1 with UDP := { pkt1.UDP with SrcPort := SwapBytesUint16 value.port } }
  else pkt1

/-- The session table with no entry and the registry with every slot cleared. -/
def emptyState : NatState :=
  { table := fun _ _ => none, portmap := fun _ _ => PortMapEntry.cleared }

/-- One call of a translator. -/
inductive Op where
  | egress (pkt : Packet) (now : Int)
  | ingress (pkt : Packet) (now : Int)

/-- A binding created by an egress miss: the protocol, the private tuple and the
public tuple returned by `allocateNewEgressConnection`. -/
structure Binding where
  protocol : Nat
  priv : Tuple
  pub : Tuple
  deriving DecidableEq, Repr

/-- The binding an egress call creates in state `s`, if it misses the table. -/
def newBinding (cfg : Config) (allocPort : AllocFn) (s : NatState) (pkt : Packet)
    (now : Int) : List Binding :=
  match egressKey pkt with
  | none => []
  | some (protocol, key) =>
    match s.table protocol key with
    | some _ => []
    | none =>
      match allocateNewEgressConnection allocPort s protocol key cfg.publicAddr now with
      | Except.error _ => []
      | Except.ok (pub, _) => [{ protocol := protocol, priv := key, pub := pub }]

/-- Runs a sequence of translator calls from `s`, collecting the bindings
created on the way; `none` if some call does not return. -/
def run (cfg : Config) (allocPort : AllocFn) (deleteConn : DeleteFn) :
    NatState → List Op → Option (NatState × List Binding)
  | s, [] => some (s, [])
  | s, Op.ingress pkt now :: ops =>
    match PublicToPrivateTranslation cfg deleteConn s pkt now with
    | Except.error _ => none
    | Except.ok out => run cfg allocPort deleteConn out.st ops
  | s, Op.egress pkt now :: ops =>
    match PrivateToPublicTranslation cfg allocPort s pkt now with
    | Except.error _ => none
    | Except.ok out =>
      match run cfg allocPort deleteConn out.st ops with
      | none => none
      | some (s1, bs) => some (s1, newBinding cfg allocPort s pkt now ++ bs)

/-- The mirrored pair of table entries of a binding `P <-> Q` together with the
registry slot of the public port, owned by the public address. -/
def bound (s : NatState) (protocol : Nat) (P Q : Tuple) : Prop :=
  s.table protocol P = some Q ∧ s.table protocol Q = some P ∧
    (s.portmap protocol Q.port).addr = Q.addr

/-- What the ingress translator does once it has built the lookup key `k` for
protocol `p` (lines 107-155): miss, stale hit or live hit. -/
def ingressLookup (cfg : Config) (deleteConn : DeleteFn) (s : NatState) (pkt : Packet)
    (now : Int) (p : Nat) (k : Tuple) : Outcome :=
  match s.table p k with
  | none => { ret := false, pkt := pkt, st := s }
  | some value =>
    if now < (s.portmap p k.port).lastused + cfg.CONNECTION_TIMEOUT then
      { ret := true, pkt := ingressRewrite cfg pkt value,
        st := { s with portmap := s.portmap.setLastused p k.port now } }
    else { ret := false, pkt := pkt, st := deleteConn s p k.port }

/-- What the egress translator does once it has built the lookup key `k` for
protocol `p` (lines 191-222): allocation on a miss, refresh on a hit, rewrite. -/
def egressLookup (cfg : Config) (allocPort : AllocFn) (s : NatState) (pkt : Packet)
    (now : Int) (p : Nat) (k : Tuple) : Except Fault Outcome :=
  match (match s.table p k with
    | none => allocateNewEgressConnection allocPort s p k cfg.publicAddr now
    | some value =>
      Except.ok (value, { s with portmap := s.portmap.setLastused p value.port now })) with
  | Except.error e => Except.error e
  | Except.ok (value, s1) =>
    Except.ok { ret := true, pkt := egressRewrite cfg pkt value, st := s1 }

/-- The conversion of a 32-bit address from network byte order to host order
that the design text describes for lookup keys: the reversal of its four
bytes, the counterpart for addresses of the byte swap of ports.  The
translators call no such function. -/
def hostOrderUint32 (x : Nat) : Nat :=
  (x % 256) * 16777216 + (x / 256 % 256) * 65536 + (x / 65536 % 256) * 256 + x / 16777216 % 256

/-! ## Sample data -/

/-- A configuration with public address 203.0.113.1 and a timeout of 100. -/
def sampleCfg : Config :=
  { publicAddr := 3405803777
    publicDstMAC := [2, 0, 0, 0, 0, 1]
    privateDstMAC := [2, 0, 0, 0, 0, 2]
    PublicMAC := [2, 0, 0, 0, 0, 3]
    PrivateMAC := [2, 0, 0, 0, 0, 4]
    CONNECTION_TIMEOUT := 100 }

/-- The allocator over the usable range `[40000, 40002)`. -/
def sampleAlloc : AllocFn := allocNewPort 40000 40002

/-- The allocator over the one-port range `[40000, 40001)`. -/
def tinyAlloc : AllocFn := allocNewPort 40000 40001

/-- The private tuple 10.0.0.5:5000. -/
def sampleP : Tuple := { addr := 167772165, port := 5000 }

/-- The public tuple 203.0.113.1:40000. -/
def sampleQ : Tuple := { addr := 3405803777, port := 40000 }

/-- An IPv4 packet of the given protocol between the given wire fields. -/
def mkPacket (protocol src dst sport dport ident : Nat) : Packet :=
  { Ether := { DAddr := [2, 0, 0, 0, 0, 9], SAddr := [2, 0, 0, 0, 0, 8], EtherType := 8 }
    IPv4 := { VersionIhl := 69, NextProtoID := protocol, SrcAddr := src, DstAddr := dst }
    TCP := { SrcPort := sport, DstPort := dport }
    UDP := { SrcPort := sport, DstPort := dport }
    ICMP := { Identifier := ident } }

/-- TCP packet from 10.0.0.5:5000 to 8.8.8.8:80. -/
def tcpOut : Packet :=
  mkPacket 6 167772165 134744072 (SwapBytesUint16 5000) (SwapBytesUint16 80) 0

/-- TCP packet from 8.8.8.8:80 to 203.0.113.1:40000. -/
def tcpBack : Packet :=
  mkPacket 6 134744072 3405803777 (SwapBytesUint16 80) (SwapBytesUint16 40000) 0

/-- The state after `tcpOut` is bound to 203.0.113.1:40000 at time 0 in the
empty state. -/
def boundState : NatState :=
  { table := (emptyState.table.store 6 sampleP sampleQ).store 6 sampleQ sampleP
    portmap := (emptyState.portmap.setLastused 6 40000 0).setAddr 6 40000 3405803777 }

/-- TCP packet from 10.0.0.6:5000 to 8.8.8.8:80. -/
def tcpOut2 : Packet :=
  mkPacket 6 167772166 134744072 (SwapBytesUint16 5000) (SwapBytesUint16 80) 0

/-- The private tuple 10.0.0.5:40000, whose port is the first of the usable range. -/
def aliasP : Tuple := { addr := 167772165, port := 40000 }

/-- TCP packet from 10.0.0.5:40000 to 8.8.8.8:80. -/
def tcpOut3 : Packet :=
  mkPacket 6 167772165 134744072 (SwapBytesUint16 40000) (SwapBytesUint16 80) 0

/-- TCP packet from 8.8.8.8:80 addressed to the private tuple 10.0.0.5:40000. -/
def tcpIn3 : Packet :=
  mkPacket 6 134744072 167772165 (SwapBytesUint16 80) (SwapBytesUint16 40000) 0

/-- The state after `tcpOut3` is bound to 203.0.113.1:40000 at time 0 in the
empty state. -/
def aliasState : NatState :=
  { table := (emptyState.table.store 6 aliasP sampleQ).store 6 sampleQ aliasP
    portmap := (emptyState.portmap.setLastused 6 40000 0).setAddr 6 40000 3405803777 }

/-- TCP packet from 8.8.8.8:80 to 203.0.113.1:40001. -/
def tcpBack2 : Packet :=
  mkPacket 6 134744072 3405803777 (SwapBytesUint16 80) (SwapBytesUint16 40001) 0

/-- ICMP echo request from 10.0.0.9 with identifier 77. -/
def icmpOut : Packet := mkPacket 1 167772169 134744072 0 0 77

/-- ICMP echo reply to 203.0.113.1 with identifier 40000. -/
def icmpBack : Packet := mkPacket 1 134744072 3405803777 0 0 40000

/-- The state after `icmpOut` is bound to 203.0.113.1 / 40000 at time 0 in the
empty state. -/
def icmpState : NatState :=
  { table := (emptyState.table.store 1 { addr := 167772169, port := 77 } sampleQ).store 1
      sampleQ { addr := 167772169, port := 77 }
    portmap := (emptyState.portmap.setLastused 1 40000 0).setAddr 1 40000 3405803777 }

/-- An IPv4 packet carrying protocol 47 (GRE). -/
def grePkt : Packet := mkPacket 47 167772165 134744072 0 0 0

/-- UDP packet from 10.0.0.7:6000 to 8.8.8.8:53. -/
def udpOut : Packet :=
  mkPacket 17 167772167 134744072 (SwapBytesUint16 6000) (SwapBytesUint16 53) 0

/-- TCP packet arriving on the private side with the public tuple
203.0.113.1:40000 as its source. -/
def pubSrcPkt : Packet :=
  mkPacket 6 3405803777 134744072 (SwapBytesUint16 40000) (SwapBytesUint16 80) 0

/-- The private tuple 10.0.0.7:6000. -/
def udpP : Tuple := { addr := 167772167, port := 6000 }

/-- The state after `udpOut` is bound to 203.0.113.1:40000 at time 0 in the
empty state. -/
def udpState : NatState :=
  { table := (emptyState.table.store 17 udpP sampleQ).store 17 sampleQ udpP
    portmap := (emptyState.portmap.setLastused 17 40000 0).setAddr 17 40000 3405803777 }

/-- UDP packet from 10.0.0.8:6001 to 8.8.8.8:53. -/
def udpOut2 : Packet :=
  mkPacket 17 167772168 134744072 (SwapBytesUint16 6001) (SwapBytesUint16 53) 0

/-- The outcome of the first packet `tcpOut` at time 0 in the empty state. -/
def firstOut : Outcome :=
  { ret := true, pkt := egressRewrite sampleCfg tcpOut sampleQ, st := boundState }

/-- The outcome of the repeated packet `tcpOut` at time 30 in `boundState`. -/
def repeatedOut : Outcome :=
  { ret := true, pkt := egressRewrite sampleCfg tcpOut sampleQ
    st := { table := boundState.table, portmap := boundState.portmap.setLastused 6 40000 30 } }

/-- The outcome of the reply `tcpBack` at time 99 in `boundState`. -/
def replyOut : Outcome :=
  { ret := true, pkt := ingressRewrite sampleCfg tcpBack sampleP
    st := { table := boundState.table, portmap := boundState.portmap.setLastused 6 40000 99 } }

/-- The outcome of the egress packet `pubSrcPkt` at time 2 in `boundState`. -/
def pubSrcOut : Outcome :=
  { ret := true, pkt := egressRewrite sampleCfg pubSrcPkt sampleP
    st := { table := boundState.table, portmap := boundState.portmap.setLastused 6 5000 2 } }

/-! ## The checksum test helper of `test_cksum/common` -/

/-- Modelled from the spec: `packet.IPV6Number` is declared outside the given
sources; it is the EtherType of IPv6, 0x86DD (the design text names IPv6 only
as a non-goal of translation). -/
def IPV6Number : Nat := 0x86DD

/-- The Ethernet header field `CheckPacketChecksums` reads. -/
structure CksumEther where
  EtherType : Nat
  deriving DecidableEq, Repr

/-- The IPv4 header fields `CheckPacketChecksums` reads. -/
structure CksumIPv4 where
  HdrChecksum : Nat
  NextProtoID : Nat
  deriving DecidableEq, Repr

/-- The IPv6 header field `CheckPacketChecksums` reads. -/
structure CksumIPv6 where
  Proto : Nat
  deriving DecidableEq, Repr

/-- The UDP header field `CheckPacketChecksums` reads. -/
structure CksumUDP where
  DgramCksum : Nat
  deriving DecidableEq, Repr

/-- The TCP header field `CheckPacketChecksums` reads. -/
structure CksumTCP where
  Cksum : Nat
  deriving DecidableEq, Repr

/-- The packet handle `*packet.Packet` as `CheckPacketChecksums` sees it; the
payload the checksums are computed over stays inside the calculators. -/
structure CksumPacket where
  Ether : CksumEther
  IPv4 : CksumIPv4
  IPv6 : CksumIPv6
  UDP : CksumUDP
  TCP : CksumTCP
  deriving DecidableEq, Repr

/-- The checksum calculators of package `packet`, defined outside the given
sources and taken as they come. -/
structure Checksums where
  CalculateIPv4Checksum : CksumPacket → Nat
  CalculateIPv4UDPChecksum : CksumPacket → Nat
  CalculateIPv4TCPChecksum : CksumPacket → Nat
  CalculateIPv6UDPChecksum : CksumPacket → Nat
  CalculateIPv6TCPChecksum : CksumPacket → Nat

/-- `CheckPacketChecksums(p)` of `test1_common.go`; the printed diagnostics are
left out. -/
def CheckPacketChecksums (c : Checksums) (p : CksumPacket) : Bool :=
  if p.Ether.EtherType = SwapBytesUint16 IPV4Number then
    let l3status : Bool :=
      if p.IPv4.HdrChecksum ≠ c.CalculateIPv4Checksum p then false else true
    if p.IPv4.NextProtoID = UDPNumber then
      if p.UDP.DgramCksum ≠ c.CalculateIPv4UDPChecksum p then false else l3status
    else if p.IPv4.NextProtoID = TCPNumber then
      if p.TCP.Cksum ≠ c.CalculateIPv4TCPChecksum p then false else l3status
    else false
  else if p.Ether.EtherType = SwapBytesUint16 IPV6Number then
    if p.IPv6.Proto = UDPNumber then
      if p.UDP.DgramCksum ≠ c.CalculateIPv6UDPChecksum p then false else true
    else if p.IPv6.Proto = TCPNumber then
      if p.TCP.Cksum ≠ c.CalculateIPv6TCPChecksum p then false else true
    else false
  else false

/-- Calculators that all return the checksum 7. -/
def sampleChecksums : Checksums :=
  { CalculateIPv4Checksum := fun _ => 7
    CalculateIPv4UDPChecksum := fun _ => 7
    CalculateIPv4TCPChecksum := fun _ => 7
    CalculateIPv6UDPChecksum := fun _ => 7
    CalculateIPv6TCPChecksum := fun _ => 7 }

/-- An IPv4 UDP packet whose stored checksums are both 7. -/
def goodUdp4 : CksumPacket :=
  { Ether := { EtherType := 8 }, IPv4 := { HdrChecksum := 7, NextProtoID := 17 },
    IPv6 := { Proto := 0 }, UDP := { DgramCksum := 7 }, TCP := { Cksum := 0 } }

/-- An ARP frame (EtherType 0x0806 on the wire). -/
def arpFrame : CksumPacket :=
  { goodUdp4 with Ether := { EtherType := SwapBytesUint16 2054 } }

/-! ## Basic facts -/

theorem SwapBytesUint16_lt (x : Nat) : SwapBytesUint16 x < 65536 := by
  unfold SwapBytesUint16; omega

theorem SwapBytesUint16_swap (x : Nat) (h : x < 65536) :
    SwapBytesUint16 (SwapBytesUint16 x) = x := by
  unfold SwapBytesUint16
  have h1 : (x % 256 * 256 + x / 256 % 256) % 256 = x / 256 % 256 := by omega
  have h2 : (x % 256 * 256 + x / 256 % 256) / 256 = x % 256 := by omega
  rw [h1, h2]
  omega

theorem toUint16_lt (n : Int) : toUint16 n < 65536 := by
  unfold toUint16; omega

theorem ingressKey_lt (pkt : Packet) (p : Nat) (k : Tuple) (h : ingressKey pkt = some (p, k)) :
    p < tableLen := by
  unfold ingressKey at h
  split_ifs at h <;> simp at h <;> obtain ⟨rfl, _⟩ := h <;> decide

theorem egressKey_lt (pkt : Packet) (p : Nat) (k : Tuple) (h : egressKey pkt = some (p, k)) :
    p < tableLen := by
  unfold egressKey at h
  split_ifs at h <;> simp at h <;> obtain ⟨rfl, _⟩ := h <;> decide

theorem ingressKey_none (cfg : Config) (deleteConn : DeleteFn) (s : NatState) (pkt : Packet)
    (now : Int) (h : ingressKey pkt = none) :
    PublicToPrivateTranslation cfg deleteConn s pkt now =
      Except.ok { ret := false, pkt := pkt, st := s } := by
  unfold ingressKey at h
  unfold PublicToPrivateTranslation
  split_ifs at h <;> simp_all

theorem ingressKey_some (cfg : Config) (deleteConn : DeleteFn) (s : NatState) (pkt : Packet)
    (now : Int) (p : Nat) (k : Tuple) (h : ingressKey pkt = some (p, k)) :
    PublicToPrivateTranslation cfg deleteConn s pkt now =
      Except.ok (match s.table p k with
      | none => { ret := false, pkt := pkt, st := s }
      | some value =>
        if now < (s.portmap p k.port).lastused + cfg.CONNECTION_TIMEOUT then
          { ret := true, pkt := ingressRewrite cfg pkt value,
            st := { s with portmap := s.portmap.setLastused p k.port now } }
        else { ret := false, pkt := pkt, st := deleteConn s p k.port }) := by
  unfold ingressKey at h
  unfold PublicToPrivateTranslation ingressRewrite
  split_ifs at h with h1 h2 h3 h4 <;> simp at h <;> obtain ⟨rfl, rfl⟩ := h <;>
    simp_all [TCPNumber, UDPNumber, ICMPNumber, tableLen] <;> split <;>
    first | rfl | (split_ifs <;> rfl)

theorem egressKey_none (cfg : Config) (allocPort : AllocFn) (s : NatState) (pkt : Packet)
    (now : Int) (h : egressKey pkt = none) :
    PrivateToPublicTranslation cfg allocPort s pkt now =
      Except.ok { ret := false, pkt := pkt, st := s } := by
  unfold egressKey at h
  unfold PrivateToPublicTranslation
  split_ifs at h <;> simp_all

theorem egressKey_some (cfg : Config) (allocPort : AllocFn) (s : NatState) (pkt : Packet)
    (now : Int) (p : Nat) (k : Tuple) (h : egressKey pkt = some (p, k)) :
    PrivateToPublicTranslation cfg allocPort s pkt now =
      match (match s.table p k with
        | none => allocateNewEgressConnection allocPort s p k cfg.publicAddr now
        | some value =>
          Except.ok (value, { s with portmap := s.portmap.setLastused p value.port now })) with
      | Except.error e => Except.error e
      | Except.ok (value, s1) =>
        Except.ok { ret := true, pkt := egressRewrite cfg pkt value, st := s1 } := by
  unfold egressKey at h
  unfold PrivateToPublicTranslation egressRewrite
  split_ifs at h with h1 h2 h3 h4 <;> simp at h <;> obtain ⟨rfl, rfl⟩ := h <;>
    simp_all [TCPNumber, UDPNumber, ICMPNumber, tableLen]

theorem allocate_some (allocPort : AllocFn) (s : NatState) (protocol : Nat) (P : Tuple)
    (publicAddr : Nat) (now : Int) (Q : Tuple) (s1 : NatState)
    (h : allocateNewEgressConnection allocPort s protocol P publicAddr now = Except.ok (Q, s1)) :
    protocol < tableLen ∧ ∃ port s0, allocPort s protocol now = some (port, s0) ∧
      Q = { addr := publicAddr, port := toUint16 port } ∧
      s1 = { table := (s0.table.store protocol P Q).store protocol Q P
             portmap := (s0.portmap.setLastused protocol Q.port now).setAddr protocol Q.port
               publicAddr } := by
  unfold allocateNewEgressConnection at h
  split_ifs at h with hlen
  refine ⟨hlen, ?_⟩
  cases hA : allocPort s protocol now with
  | none => simp [hA] at h
  | some r =>
    obtain ⟨port, s0⟩ := r
    simp only [hA, Except.ok.injEq, Prod.mk.injEq] at h
    obtain ⟨rfl, rfl⟩ := h
    exact ⟨port, s0, rfl, rfl, rfl⟩

theorem allocate_table_pub (allocPort : AllocFn) (s : NatState) (protocol : Nat) (P : Tuple)
    (publicAddr : Nat) (now : Int) (Q : Tuple) (s1 : NatState)
    (h : allocateNewEgressConnection allocPort s protocol P publicAddr now = Except.ok (Q, s1)) :
    s1.table protocol Q = some P := by
  obtain ⟨_, port, s0, _, _, rfl⟩ := allocate_some _ _ _ _ _ _ _ _ h
  simp [Table.store]

theorem allocate_table_priv (allocPort : AllocFn) (s : NatState) (protocol : Nat) (P : Tuple)
    (publicAddr : Nat) (now : Int) (Q : Tuple) (s1 : NatState)
    (h : allocateNewEgressConnection allocPort s protocol P publicAddr now = Except.ok (Q, s1)) :
    s1.table protocol P = some Q := by
  obtain ⟨_, port, s0, _, _, rfl⟩ := allocate_some _ _ _ _ _ _ _ _ h
  by_cases hPQ : P = Q
  · simp [Table.store, hPQ]
  · simp [Table.store, hPQ]

theorem allocate_lastused (allocPort : AllocFn) (s : NatState) (protocol : Nat) (P : Tuple)
    (publicAddr : Nat) (now : Int) (Q : Tuple) (s1 : NatState)
    (h : allocateNewEgressConnection allocPort s protocol P publicAddr now = Except.ok (Q, s1)) :
    (s1.portmap protocol Q.port).lastused = now ∧ (s1.portmap protocol Q.port).addr = publicAddr ∧
      Q.addr = publicAddr ∧ Q.port < 65536 := by
  obtain ⟨_, port, s0, _, hQ, rfl⟩ := allocate_some _ _ _ _ _ _ _ _ h
  subst hQ
  simp [PortMap.setLastused, PortMap.setAddr, toUint16_lt]

theorem egressRewrite_srcAddr (cfg : Config) (pkt : Packet) (value : Tuple) :
    (egressRewrite cfg pkt value).IPv4.SrcAddr = value.addr ∧
      (egressRewrite cfg pkt value).IPv4.DstAddr = pkt.IPv4.DstAddr ∧
      (egressRewrite cfg pkt value).IPv4.NextProtoID = pkt.IPv4.NextProtoID ∧
      (egressRewrite cfg pkt value).Ether.EtherType = pkt.Ether.EtherType ∧
      (egressRewrite cfg pkt value).ICMP = pkt.ICMP := by
  unfold egressRewrite
  split_ifs <;> simp

theorem egressRewrite_wireSrcPort (cfg : Config) (pkt : Packet) (value : Tuple)
    (h : pkt.IPv4.NextProtoID = TCPNumber ∨ pkt.IPv4.NextProtoID = UDPNumber) :
    (egressRewrite cfg pkt value).wireSrcPort = SwapBytesUint16 value.port := by
  unfold egressRewrite Packet.wireSrcPort
  rcases h with h | h <;> simp [h, TCPNumber, UDPNumber]

theorem ingressRewrite_dstAddr (cfg : Config) (pkt : Packet) (value : Tuple) :
    (ingressRewrite cfg pkt value).IPv4.DstAddr = value.addr ∧
      (ingressRewrite cfg pkt value).IPv4.SrcAddr = pkt.IPv4.SrcAddr ∧
      (ingressRewrite cfg pkt value).IPv4.NextProtoID = pkt.IPv4.NextProtoID ∧
      (ingressRewrite cfg pkt value).ICMP = pkt.ICMP := by
  unfold ingressRewrite
  split_ifs <;> simp

theorem ingressRewrite_wireDstPort (cfg : Config) (pkt : Packet) (value : Tuple)
    (h : pkt.IPv4.NextProtoID = TCPNumber ∨ pkt.IPv4.NextProtoID = UDPNumber) :
    (ingressRewrite cfg pkt value).wireDstPort = SwapBytesUint16 value.port := by
  unfold ingressRewrite Packet.wireDstPort
  rcases h with h | h <;> simp [h, TCPNumber, UDPNumber]

theorem egressKey_tcp_udp (pkt : Packet)
    (hip : pkt.Ether.EtherType = SwapBytesUint16 IPV4Number)
    (h : pkt.IPv4.NextProtoID = TCPNumber ∨ pkt.IPv4.NextProtoID = UDPNumber) :
    egressKey pkt = some (pkt.IPv4.NextProtoID,
      { addr := pkt.IPv4.SrcAddr, port := SwapBytesUint16 pkt.wireSrcPort }) := by
  unfold egressKey Packet.wireSrcPort
  rcases h with h | h <;> simp [hip, h, TCPNumber, UDPNumber]

theorem ingressKey_tcp_udp (pkt : Packet)
    (hip : pkt.Ether.EtherType = SwapBytesUint16 IPV4Number)
    (h : pkt.IPv4.NextProtoID = TCPNumber ∨ pkt.IPv4.NextProtoID = UDPNumber) :
    ingressKey pkt = some (pkt.IPv4.NextProtoID,
      { addr := pkt.IPv4.DstAddr, port := SwapBytesUint16 pkt.wireDstPort }) := by
  unfold ingressKey Packet.wireDstPort
  rcases h with h | h <;> simp [hip, h, TCPNumber, UDPNumber]

/-- An egress call that misses the table returns the rewrite for the tuple
`allocateNewEgressConnection` returned, in the state it left. -/
theorem egress_miss (cfg : Config) (allocPort : AllocFn) (s : NatState) (pkt : Packet)
    (now : Int) (p : Nat) (k : Tuple) (out : Outcome)
    (hkey : egressKey pkt = some (p, k)) (hmiss : s.table p k = none)
    (hout : PrivateToPublicTranslation cfg allocPort s pkt now = Except.ok out) :
    ∃ Q, allocateNewEgressConnection allocPort s p k cfg.publicAddr now =
        Except.ok (Q, out.st) ∧
      out.ret = true ∧ out.pkt = egressRewrite cfg pkt Q := by
  rw [egressKey_some cfg allocPort s pkt now p k hkey, hmiss] at hout
  cases hA : allocateNewEgressConnection allocPort s p k cfg.publicAddr now with
  | error e => simp [hA] at hout
  | ok r =>
    obtain ⟨Q, s1⟩ := r
    simp only [hA, Except.ok.injEq] at hout
    subst hout
    exact ⟨Q, rfl, rfl, rfl⟩

/-- An egress call that hits the table returns the rewrite for the looked-up
tuple and refreshes the slot of its port. -/
theorem egress_hit (cfg : Config) (allocPort : AllocFn) (s : NatState) (pkt : Packet)
    (now : Int) (p : Nat) (k Q : Tuple)
    (hkey : egressKey pkt = some (p, k)) (hfound : s.table p k = some Q) :
    PrivateToPublicTranslation cfg allocPort s pkt now =
      Except.ok { ret := true, pkt := egressRewrite cfg pkt Q,
                  st := { table := s.table, portmap := s.portmap.setLastused p Q.port now } } := by
  rw [egressKey_some cfg allocPort s pkt now p k hkey, hfound]

theorem allocNewPort_state (portStart portEnd : Nat) (s : NatState) (p : Nat) (now : Int)
    (r : Int) (s1 : NatState) (h : allocNewPort portStart portEnd s p now = some (r, s1)) :
    s1 = s := by
  unfold allocNewPort at h
  split at h
  · simp only [Option.some.injEq, Prod.mk.injEq] at h
    exact h.2.symm
  · simp at h

theorem deleteOldConnection_table (s : NatState) (p port q : Nat) (k : Tuple)
    (h : (deleteOldConnection s p port).table q k ≠ none) : s.table q k ≠ none := by
  unfold deleteOldConnection at h
  cases hT : s.table p { addr := (s.portmap p port).addr, port := port } with
  | none => simpa [hT] using h
  | some v =>
    simp only [hT, Table.delete] at h
    split_ifs at h <;> simp_all

theorem ingress_table (cfg : Config) (deleteConn : DeleteFn)
    (hdel : ∀ s p port q k, (deleteConn s p port).table q k ≠ none → s.table q k ≠ none)
    (s : NatState) (pkt : Packet) (now : Int) (out : Outcome)
    (hout : PublicToPrivateTranslation cfg deleteConn s pkt now = Except.ok out)
    (q : Nat) (k : Tuple) (h : out.st.table q k ≠ none) :
    s.table q k ≠ none := by
  cases hk : ingressKey pkt with
  | none =>
    rw [ingressKey_none cfg deleteConn s pkt now hk] at hout
    simp only [Except.ok.injEq] at hout
    subst hout
    exact h
  | some pk =>
    obtain ⟨p, key⟩ := pk
    rw [ingressKey_some cfg deleteConn s pkt now p key hk] at hout
    simp only [Except.ok.injEq] at hout
    subst hout
    split at h
    · exact h
    · split_ifs at h
      · exact h
      · exact hdel _ _ _ _ _ h

theorem egress_table (cfg : Config) (allocPort : AllocFn)
    (halloc : ∀ s p now r s1, allocPort s p now = some (r, s1) →
      ∀ q k, s1.table q k ≠ none → s.table q k ≠ none)
    (s : NatState) (pkt : Packet) (now : Int) (out : Outcome)
    (hout : PrivateToPublicTranslation cfg allocPort s pkt now = Except.ok out)
    (q : Nat) (k : Tuple) (h : out.st.table q k ≠ none) :
    s.table q k ≠ none ∨
      ∃ b ∈ newBinding cfg allocPort s pkt now, b.protocol = q ∧ (b.priv = k ∨ b.pub = k) := by
  cases hk : egressKey pkt with
  | none =>
    rw [egressKey_none cfg allocPort s pkt now hk] at hout
    simp only [Except.ok.injEq] at hout
    subst hout
    exact Or.inl h
  | some pk =>
    obtain ⟨p, key⟩ := pk
    cases hfound : s.table p key with
    | some v =>
      rw [egress_hit cfg allocPort s pkt now p key v hk hfound] at hout
      simp only [Except.ok.injEq] at hout
      subst hout
      exact Or.inl h
    | none =>
      obtain ⟨Q, hQ, _, _⟩ := egress_miss cfg allocPort s pkt now p key out hk hfound hout
      have hnb : newBinding cfg allocPort s pkt now =
          [{ protocol := p, priv := key, pub := Q }] := by
        unfold newBinding
        simp [hk, hfound, hQ]
      obtain ⟨_, port, s0, hA, _, hst⟩ := allocate_some _ _ _ _ _ _ _ _ hQ
      rw [hst] at h
      simp only [Table.store] at h
      by_cases h1 : q = p ∧ k = Q
      · exact Or.inr ⟨_, by rw [hnb]; exact List.mem_singleton.mpr rfl, h1.1.symm, Or.inr h1.2.symm⟩
      · by_cases h2 : q = p ∧ k = key
        · exact Or.inr ⟨_, by rw [hnb]; exact List.mem_singleton.mpr rfl, h2.1.symm,
            Or.inl h2.2.symm⟩
        · simp only [h1, h2, if_false] at h
          exact Or.inl (halloc s p now port s0 hA q k h)

theorem run_table (cfg : Config) (allocPort : AllocFn) (deleteConn : DeleteFn)
    (halloc : ∀ s p now r s1, allocPort s p now = some (r, s1) →
      ∀ q k, s1.table q k ≠ none → s.table q k ≠ none)
    (hdel : ∀ s p port q k, (deleteConn s p port).table q k ≠ none → s.table q k ≠ none)
    (ops : List Op) : ∀ (s0 s : NatState) (bs : List Binding),
      run cfg allocPort deleteConn s0 ops = some (s, bs) →
      ∀ q k, s.table q k ≠ none →
        s0.table q k ≠ none ∨ ∃ b ∈ bs, b.protocol = q ∧ (b.priv = k ∨ b.pub = k) := by
  induction ops with
  | nil =>
    intro s0 s bs hrun q k h
    simp only [run, Option.some.injEq, Prod.mk.injEq] at hrun
    obtain ⟨rfl, _⟩ := hrun
    exact Or.inl h
  | cons op ops ih =>
    intro s0 s bs hrun q k h
    cases op with
    | ingress pkt now =>
      simp only [run] at hrun
      cases hout : PublicToPrivateTranslation cfg deleteConn s0 pkt now with
      | error e => simp [hout] at hrun
      | ok out =>
        simp only [hout] at hrun
        rcases ih _ s bs hrun q k h with h1 | h1
        · exact Or.inl (ingress_table cfg deleteConn hdel s0 pkt now out hout q k h1)
        · exact Or.inr h1
    | egress pkt now =>
      simp only [run] at hrun
      cases hout : PrivateToPublicTranslation cfg allocPort s0 pkt now with
      | error e => simp [hout] at hrun
      | ok out =>
        simp only [hout] at hrun
        cases hrest : run cfg allocPort deleteConn out.st ops with
        | none => simp [hrest] at hrun
        | some r =>
          obtain ⟨s1, bs1⟩ := r
          simp only [hrest, Option.some.injEq, Prod.mk.injEq] at hrun
          obtain ⟨rfl, rfl⟩ := hrun
          rcases ih out.st s1 bs1 hrest q k h with h1 | ⟨b, hb, hb2⟩
          · rcases egress_table cfg allocPort halloc s0 pkt now out hout q k h1 with
              h2 | ⟨b, hb, hb2⟩
            · exact Or.inl h2
            · exact Or.inr ⟨b, List.mem_append_left _ hb, hb2⟩
          · exact Or.inr ⟨b, List.mem_append_right _ hb, hb2⟩

/-! ## Round trip for TCP and UDP -/

/-- C1. For a TCP or UDP packet whose private tuple misses the table, if the
egress translation binds it at time `t0` and the next call is the ingress
translation, at a time `t1` with `t1 - t0 < CONNECTION_TIMEOUT`, of a packet of
the same protocol whose wire destination address and port are the source
address and port egress wrote, then ingress returns accept and the wire
destination address and port become the original wire source address and
port. -/
theorem egress_ingress_round_trip (cfg : Config) (allocPort : AllocFn) (deleteConn : DeleteFn)
    (s : NatState) (pkt back : Packet) (t0 t1 : Int) (out : Outcome)
    (hip : pkt.Ether.EtherType = SwapBytesUint16 IPV4Number)
    (hproto : pkt.IPv4.NextProtoID = TCPNumber ∨ pkt.IPv4.NextProtoID = UDPNumber)
    (hport : pkt.wireSrcPort < 65536)
    (hmiss : s.table pkt.IPv4.NextProtoID
      { addr := pkt.IPv4.SrcAddr, port := SwapBytesUint16 pkt.wireSrcPort } = none)
    (hout : PrivateToPublicTranslation cfg allocPort s pkt t0 = Except.ok out)
    (hbip : back.Ether.EtherType = SwapBytesUint16 IPV4Number)
    (hbproto : back.IPv4.NextProtoID = pkt.IPv4.NextProtoID)
    (hbaddr : back.IPv4.DstAddr = out.pkt.IPv4.SrcAddr)
    (hbport : back.wireDstPort = out.pkt.wireSrcPort)
    (htime : t1 - t0 < cfg.CONNECTION_TIMEOUT) :
    ∃ r, PublicToPrivateTranslation cfg deleteConn out.st back t1 = Except.ok r ∧
      r.ret = true ∧ r.pkt.IPv4.DstAddr = pkt.IPv4.SrcAddr ∧
      r.pkt.wireDstPort = pkt.wireSrcPort := by
  obtain ⟨Q, hQ, _, hpkt⟩ :=
    egress_miss cfg allocPort s pkt t0 _ _ out (egressKey_tcp_udp pkt hip hproto) hmiss hout
  obtain ⟨hlu, _, _, hQport⟩ := allocate_lastused _ _ _ _ _ _ _ _ hQ
  have htab := allocate_table_pub _ _ _ _ _ _ _ _ hQ
  have hbproto2 : back.IPv4.NextProtoID = TCPNumber ∨ back.IPv4.NextProtoID = UDPNumber := by
    rw [hbproto]; exact hproto
  have hkey : ingressKey back = some (pkt.IPv4.NextProtoID, Q) := by
    rw [ingressKey_tcp_udp back hbip hbproto2, hbaddr, hbport, hpkt,
      egressRewrite_wireSrcPort cfg pkt Q hproto, (egressRewrite_srcAddr cfg pkt Q).1,
      SwapBytesUint16_swap _ hQport, hbproto]
  rw [ingressKey_some cfg deleteConn out.st back t1 _ _ hkey, htab]
  have hlt : t1 < (out.st.portmap pkt.IPv4.NextProtoID Q.port).lastused +
      cfg.CONNECTION_TIMEOUT := by rw [hlu]; omega
  simp only [hlt, if_true]
  refine ⟨_, rfl, rfl, (ingressRewrite_dstAddr cfg back _).1, ?_⟩
  rw [ingressRewrite_wireDstPort cfg back _ hbproto2]
  exact SwapBytesUint16_swap _ hport

/-- The round trip of 10.0.0.5:5000 through 203.0.113.1:40000 in the empty
state, with the reply one tick before the timeout. -/
theorem egress_ingress_round_trip_witness :
    PrivateToPublicTranslation sampleCfg sampleAlloc emptyState tcpOut 0 =
        Except.ok { ret := true, pkt := egressRewrite sampleCfg tcpOut sampleQ,
                    st := boundState } ∧
      ∃ r, PublicToPrivateTranslation sampleCfg deleteOldConnection boundState tcpBack 99 =
          Except.ok r ∧
        r.ret = true ∧ r.pkt.IPv4.DstAddr = tcpOut.IPv4.SrcAddr ∧
        r.pkt.wireDstPort = tcpOut.wireSrcPort :=
  ⟨rfl, egress_ingress_round_trip sampleCfg sampleAlloc deleteOldConnection emptyState tcpOut
    tcpBack 0 99 { ret := true, pkt := egressRewrite sampleCfg tcpOut sampleQ, st := boundState }
    rfl (Or.inl rfl) (by decide) rfl rfl rfl rfl rfl rfl (by decide)⟩

/-! ## Binding symmetry -/

/-- C2. After `allocateNewEgressConnection(protocol, P, publicAddr)` returns the
public tuple `Q`, looking up `P` in `table[protocol]` yields `Q` and looking up
`Q` yields `P`, for every protocol, state, private tuple and port allocator. -/
theorem binding_symmetry (allocPort : AllocFn) (s : NatState) (protocol : Nat) (P : Tuple)
    (publicAddr : Nat) (now : Int) (Q : Tuple) (s1 : NatState)
    (h : allocateNewEgressConnection allocPort s protocol P publicAddr now = Except.ok (Q, s1)) :
    s1.table protocol P = some Q ∧ s1.table protocol Q = some P :=
  ⟨allocate_table_priv _ _ _ _ _ _ _ _ h, allocate_table_pub _ _ _ _ _ _ _ _ h⟩

/-- Binding 10.0.0.5:5000 in the empty state returns 203.0.113.1:40000, and the
two lookups mirror each other. -/
theorem binding_symmetry_witness :
    allocateNewEgressConnection sampleAlloc emptyState 6 sampleP 3405803777 0 =
        Except.ok (sampleQ, boundState) ∧
      boundState.table 6 sampleP = some sampleQ ∧ boundState.table 6 sampleQ = some sampleP :=
  ⟨rfl, binding_symmetry sampleAlloc emptyState 6 sampleP 3405803777 0 sampleQ boundState rfl⟩

/-! ## No unsolicited inbound -/

/-- C3, as stated, fails. From the empty state, the TCP packet of 10.0.0.5:40000
is bound to 203.0.113.1:40000; the private tuple 10.0.0.5:40000 is a key of the
same table and shares the registry slot of port 40000, so an inbound packet
addressed to 10.0.0.5:40000, a tuple never returned as a public tuple, is
accepted. -/
theorem unsolicited_inbound_counterexample :
    run sampleCfg sampleAlloc deleteOldConnection emptyState [Op.egress tcpOut3 0] =
        some (aliasState, [{ protocol := 6, priv := aliasP, pub := sampleQ }]) ∧
      ingressKey tcpIn3 = some (6, aliasP) ∧
      aliasP ∉ ([{ protocol := 6, priv := aliasP, pub := sampleQ }] : List Binding).map
        Binding.pub ∧
      PublicToPrivateTranslation sampleCfg deleteOldConnection aliasState tcpIn3 1 =
        Except.ok { ret := true, pkt := ingressRewrite sampleCfg tcpIn3 sampleQ,
                    st := { table := aliasState.table,
                            portmap := aliasState.portmap.setLastused 6 40000 1 } } :=
  ⟨rfl, by decide, by decide, rfl⟩

/-- C3, amended. In every state reachable from the empty session table by any
sequence of egress and ingress translations, with a port allocator and an
eviction routine that add no table entry, for every protocol and every tuple
`T` that was neither the private tuple nor the returned public tuple of an
egress binding for that protocol, `PublicToPrivateTranslation` on a packet
whose destination is `T` returns drop. -/
theorem no_unsolicited_inbound (cfg : Config) (allocPort : AllocFn) (deleteConn : DeleteFn)
    (halloc : ∀ s p now r s1, allocPort s p now = some (r, s1) →
      ∀ q k, s1.table q k ≠ none → s.table q k ≠ none)
    (hdel : ∀ s p port q k, (deleteConn s p port).table q k ≠ none → s.table q k ≠ none)
    (portmap0 : PortMap) (ops : List Op) (s : NatState) (bs : List Binding)
    (hrun : run cfg allocPort deleteConn { table := fun _ _ => none, portmap := portmap0 } ops =
      some (s, bs))
    (pkt : Packet) (now : Int) (protocol : Nat) (T : Tuple)
    (hkey : ingressKey pkt = some (protocol, T))
    (hpub : ∀ b ∈ bs, b.protocol = protocol → b.pub ≠ T)
    (hpriv : ∀ b ∈ bs, b.protocol = protocol → b.priv ≠ T) :
    PublicToPrivateTranslation cfg deleteConn s pkt now =
      Except.ok { ret := false, pkt := pkt, st := s } := by
  have hmiss : s.table protocol T = none := by
    by_contra hne
    rcases run_table cfg allocPort deleteConn halloc hdel ops _ s bs hrun protocol T hne with
      h | ⟨b, hb, hp, hb2⟩
    · exact h rfl
    · rcases hb2 with h | h
      · exact hpriv b hb hp h
      · exact hpub b hb hp h
  rw [ingressKey_some cfg deleteConn s pkt now protocol T hkey, hmiss]

/-- After 10.0.0.5:5000 is bound to 203.0.113.1:40000, a packet addressed to
203.0.113.1:40001 is dropped. -/
theorem no_unsolicited_inbound_witness :
    run sampleCfg sampleAlloc deleteOldConnection emptyState [Op.egress tcpOut 0] =
        some (boundState, [{ protocol := 6, priv := sampleP, pub := sampleQ }]) ∧
      ingressKey tcpBack2 = some (6, { addr := 3405803777, port := 40001 }) ∧
      PublicToPrivateTranslation sampleCfg deleteOldConnection boundState tcpBack2 1 =
        Except.ok { ret := false, pkt := tcpBack2, st := boundState } :=
  ⟨rfl, by decide,
    no_unsolicited_inbound sampleCfg sampleAlloc deleteOldConnection
      (fun s p now r s1 h q k hk => by
        rw [allocNewPort_state 40000 40002 s p now r s1 h] at hk; exact hk)
      deleteOldConnection_table emptyState.portmap [Op.egress tcpOut 0] boundState
      [{ protocol := 6, priv := sampleP, pub := sampleQ }] rfl tcpBack2 1 6
      { addr := 3405803777, port := 40001 } (by decide) (by decide) (by decide)⟩

/-! ## Staleness and eviction on ingress -/

/-- C4, at the boundary, fails. In the state where 203.0.113.1:40000 was last
used at time 0, a reply arriving at time 100 with `CONNECTION_TIMEOUT = 100`
finds its key, has `now - last_used = CONNECTION_TIMEOUT`, and is evicted and
dropped instead of accepted. -/
theorem staleness_boundary_counterexample :
    ingressKey tcpBack = some (6, sampleQ) ∧ boundState.table 6 sampleQ = some sampleP ∧
      (100 : Int) - (boundState.portmap 6 sampleQ.port).lastused =
        sampleCfg.CONNECTION_TIMEOUT ∧
      PublicToPrivateTranslation sampleCfg deleteOldConnection boundState tcpBack 100 =
        Except.ok { ret := false, pkt := tcpBack,
                    st := deleteOldConnection boundState 6 40000 } :=
  ⟨by decide, rfl, by decide, rfl⟩

/-- C4, amended. For an ingress packet whose key is found in the session table,
with `last_used` the registry timestamp of the key's port: the packet is
treated as stale (the eviction routine is run on the port, the packet is
dropped unchanged) exactly when `now - last_used >= CONNECTION_TIMEOUT`;
otherwise `last_used` is refreshed to `now`, the table is kept and the packet
is accepted. -/
theorem staleness_threshold (cfg : Config) (deleteConn : DeleteFn) (s : NatState)
    (pkt : Packet) (now : Int) (protocol : Nat) (key value : Tuple)
    (hkey : ingressKey pkt = some (protocol, key))
    (hfound : s.table protocol key = some value) :
    ∃ r, PublicToPrivateTranslation cfg deleteConn s pkt now = Except.ok r ∧
      (r.ret = false ↔
        cfg.CONNECTION_TIMEOUT ≤ now - (s.portmap protocol key.port).lastused) ∧
      (cfg.CONNECTION_TIMEOUT ≤ now - (s.portmap protocol key.port).lastused →
        r.pkt = pkt ∧ r.st = deleteConn s protocol key.port) ∧
      (now - (s.portmap protocol key.port).lastused < cfg.CONNECTION_TIMEOUT →
        r.ret = true ∧ (r.st.portmap protocol key.port).lastused = now ∧
          r.st.table = s.table) := by
  rw [ingressKey_some cfg deleteConn s pkt now protocol key hkey, hfound]
  by_cases hlt : now < (s.portmap protocol key.port).lastused + cfg.CONNECTION_TIMEOUT
  · simp only [hlt, if_true]
    refine ⟨_, rfl, ⟨fun h => by simp at h, fun h => by omega⟩, fun h => by omega, fun _ => ?_⟩
    simp [PortMap.setLastused]
  · simp only [hlt, if_false]
    exact ⟨_, rfl, ⟨fun _ => by omega, fun _ => rfl⟩, fun _ => ⟨rfl, rfl⟩, fun h => by omega⟩

/-- The reply to 203.0.113.1:40000 in the state bound at time 0, at time 99. -/
theorem staleness_threshold_witness :
    ∃ r, PublicToPrivateTranslation sampleCfg deleteOldConnection boundState tcpBack 99 =
        Except.ok r ∧
      (r.ret = false ↔
        sampleCfg.CONNECTION_TIMEOUT ≤ 99 - (boundState.portmap 6 sampleQ.port).lastused) ∧
      (sampleCfg.CONNECTION_TIMEOUT ≤ 99 - (boundState.portmap 6 sampleQ.port).lastused →
        r.pkt = tcpBack ∧ r.st = deleteOldConnection boundState 6 sampleQ.port) ∧
      (99 - (boundState.portmap 6 sampleQ.port).lastused < sampleCfg.CONNECTION_TIMEOUT →
        r.ret = true ∧ (r.st.portmap 6 sampleQ.port).lastused = 99 ∧
          r.st.table = boundState.table) :=
  staleness_threshold sampleCfg deleteOldConnection boundState tcpBack 99 6 sampleQ sampleP
    (by decide) rfl

/-- C5. For a binding `P <-> Q` whose port slot was last used more than
`CONNECTION_TIMEOUT` ago, the next ingress packet destined to `Q` is dropped
with its headers unmodified, and afterwards the lookups of both `P` and `Q` in
that protocol's session table miss (eviction as described by the design). -/
theorem eviction_correctness (cfg : Config) (s : NatState) (pkt : Packet) (now : Int)
    (protocol : Nat) (P Q : Tuple)
    (hbound : bound s protocol P Q)
    (hkey : ingressKey pkt = some (protocol, Q))
    (hstale : now - (s.portmap protocol Q.port).lastused > cfg.CONNECTION_TIMEOUT) :
    ∃ r, PublicToPrivateTranslation cfg deleteOldConnection s pkt now = Except.ok r ∧
      r.ret = false ∧ r.pkt = pkt ∧ r.st.table protocol P = none ∧
      r.st.table protocol Q = none := by
  obtain ⟨_, hQP, hown⟩ := hbound
  rw [ingressKey_some cfg deleteOldConnection s pkt now protocol Q hkey, hQP]
  have hlt : ¬ now < (s.portmap protocol Q.port).lastused + cfg.CONNECTION_TIMEOUT := by omega
  simp only [hlt, if_false]
  have hQ : ({ addr := (s.portmap protocol Q.port).addr, port := Q.port } : Tuple) = Q := by
    rw [hown]
  refine ⟨_, rfl, rfl, rfl, ?_, ?_⟩
  · simp only [deleteOldConnection, hQ, hQP, Table.delete]
    by_cases hPQ : P = Q <;> simp [hPQ]
  · simp only [deleteOldConnection, hQ, hQP, Table.delete]
    simp

/-- The binding of 10.0.0.5:5000 made at time 0 is evicted by a reply at 101. -/
theorem eviction_correctness_witness :
    bound boundState 6 sampleP sampleQ ∧
      ∃ r, PublicToPrivateTranslation sampleCfg deleteOldConnection boundState tcpBack 101 =
          Except.ok r ∧
        r.ret = false ∧ r.pkt = tcpBack ∧ r.st.table 6 sampleP = none ∧
        r.st.table 6 sampleQ = none :=
  ⟨⟨rfl, rfl, rfl⟩,
    eviction_correctness sampleCfg boundState tcpBack 101 6 sampleP sampleQ ⟨rfl, rfl, rfl⟩
      (by decide) (by decide)⟩

/-! ## ICMP round trip -/

/-- C6, as stated, fails. The echo request from 10.0.0.9 with identifier 77 is
bound to 203.0.113.1 / 40000 in the empty state; the echo reply arriving at
203.0.113.1 with identifier 40000 before the timeout is accepted and its
destination address becomes 10.0.0.9, but its identifier is still 40000, not
77. -/
theorem icmp_identifier_counterexample :
    newBinding sampleCfg sampleAlloc emptyState icmpOut 0 =
        [{ protocol := 1, priv := { addr := 167772169, port := 77 }, pub := sampleQ }] ∧
      PrivateToPublicTranslation sampleCfg sampleAlloc emptyState icmpOut 0 =
        Except.ok { ret := true, pkt := egressRewrite sampleCfg icmpOut sampleQ,
                    st := icmpState } ∧
      PublicToPrivateTranslation sampleCfg deleteOldConnection icmpState icmpBack 50 =
        Except.ok { ret := true,
                    pkt := ingressRewrite sampleCfg icmpBack { addr := 167772169, port := 77 },
                    st := { table := icmpState.table,
                            portmap := icmpState.portmap.setLastused 1 40000 50 } } ∧
      (ingressRewrite sampleCfg icmpBack { addr := 167772169, port := 77 }).IPv4.DstAddr =
        167772169 ∧
      (ingressRewrite sampleCfg icmpBack { addr := 167772169, port := 77 }).ICMP.Identifier =
        40000 ∧
      (ingressRewrite sampleCfg icmpBack { addr := 167772169, port := 77 }).ICMP.Identifier ≠
        77 :=
  ⟨by decide, rfl, rfl, by decide, by decide, by decide⟩

/-- C6, amended. For an ICMP echo request from private tuple `{a, id}` that
misses the table and that egress binds to the public tuple `Q = {pub, id1}`, an
echo reply arriving at `{pub, id1}` before the timeout is accepted by
`PublicToPrivateTranslation` and its destination address is rewritten to `a`;
its ICMP identifier is left as it arrived (`id1`), as egress left the
identifier of the request (`id`). -/
theorem icmp_round_trip (cfg : Config) (allocPort : AllocFn) (deleteConn : DeleteFn)
    (s : NatState) (pkt back : Packet) (t0 t1 : Int) (out : Outcome) (Q : Tuple)
    (hip : pkt.Ether.EtherType = SwapBytesUint16 IPV4Number)
    (hproto : pkt.IPv4.NextProtoID = ICMPNumber)
    (hmiss : s.table ICMPNumber
      { addr := pkt.IPv4.SrcAddr, port := pkt.ICMP.Identifier } = none)
    (hout : PrivateToPublicTranslation cfg allocPort s pkt t0 = Except.ok out)
    (hQ : out.st.table ICMPNumber
      { addr := pkt.IPv4.SrcAddr, port := pkt.ICMP.Identifier } = some Q)
    (hbip : back.Ether.EtherType = SwapBytesUint16 IPV4Number)
    (hbproto : back.IPv4.NextProtoID = ICMPNumber)
    (hbaddr : back.IPv4.DstAddr = Q.addr)
    (hbid : back.ICMP.Identifier = Q.port)
    (htime : t1 - t0 < cfg.CONNECTION_TIMEOUT) :
    out.pkt.ICMP.Identifier = pkt.ICMP.Identifier ∧
      ∃ r, PublicToPrivateTranslation cfg deleteConn out.st back t1 = Except.ok r ∧
        r.ret = true ∧ r.pkt.IPv4.DstAddr = pkt.IPv4.SrcAddr ∧
        r.pkt.ICMP.Identifier = back.ICMP.Identifier := by
  have hk : egressKey pkt = some (ICMPNumber,
      { addr := pkt.IPv4.SrcAddr, port := pkt.ICMP.Identifier }) := by
    unfold egressKey; simp [hip, hproto, ICMPNumber, TCPNumber, UDPNumber]
  obtain ⟨Q1, hQ1, _, hpkt⟩ := egress_miss cfg allocPort s pkt t0 _ _ out hk hmiss hout
  have hQQ : Q1 = Q := by
    have := allocate_table_priv _ _ _ _ _ _ _ _ hQ1
    rw [hQ] at this
    exact (Option.some.inj this).symm
  subst hQQ
  obtain ⟨hlu, _, _, _⟩ := allocate_lastused _ _ _ _ _ _ _ _ hQ1
  have htab := allocate_table_pub _ _ _ _ _ _ _ _ hQ1
  have hkey : ingressKey back = some (ICMPNumber, Q1) := by
    unfold ingressKey; simp [hbip, hbproto, hbaddr, hbid, ICMPNumber, TCPNumber, UDPNumber]
  refine ⟨by rw [hpkt, (egressRewrite_srcAddr cfg pkt Q1).2.2.2.2], ?_⟩
  rw [ingressKey_some cfg deleteConn out.st back t1 _ _ hkey, htab]
  have hlt : t1 < (out.st.portmap ICMPNumber Q1.port).lastused + cfg.CONNECTION_TIMEOUT := by
    rw [hlu]; omega
  simp only [hlt, if_true]
  refine ⟨_, rfl, rfl, (ingressRewrite_dstAddr cfg back _).1, ?_⟩
  rw [(ingressRewrite_dstAddr cfg back _).2.2.2]

/-- The echo request of 10.0.0.9 / 77 and its reply at 203.0.113.1 / 40000. -/
theorem icmp_round_trip_witness :
    (egressRewrite sampleCfg icmpOut sampleQ).ICMP.Identifier = icmpOut.ICMP.Identifier ∧
      ∃ r, PublicToPrivateTranslation sampleCfg deleteOldConnection icmpState icmpBack 50 =
          Except.ok r ∧
        r.ret = true ∧ r.pkt.IPv4.DstAddr = icmpOut.IPv4.SrcAddr ∧
        r.pkt.ICMP.Identifier = icmpBack.ICMP.Identifier :=
  icmp_round_trip sampleCfg sampleAlloc deleteOldConnection emptyState icmpOut icmpBack 0 50
    { ret := true, pkt := egressRewrite sampleCfg icmpOut sampleQ, st := icmpState } sampleQ
    rfl rfl rfl rfl rfl rfl rfl rfl rfl (by decide)

/-! ## Port exhaustion -/

/-- C7, as stated, fails. With the one-port range `[40000, 40001)` and port
40000 bound, a TCP packet from 10.0.0.6:5000 misses the table, the allocator has
no free port, and `PrivateToPublicTranslation` does not return drop: the
failure of the allocator ends the call. -/
theorem port_exhaustion_counterexample :
    egressKey tcpOut2 = some (6, { addr := 167772166, port := 5000 }) ∧
      boundState.table 6 { addr := 167772166, port := 5000 } = none ∧
      tinyAlloc boundState 6 7 = none ∧
      PrivateToPublicTranslation sampleCfg tinyAlloc boundState tcpOut2 7 =
        Except.error Fault.allocFailed :=
  ⟨by decide, rfl, rfl, rfl⟩

/-- C7, amended. `PrivateToPublicTranslation` has no drop for an IPv4 TCP, UDP or
ICMP packet: whenever the call returns, it returns accept; and on a miss of the
private tuple the call returns only if the allocator returned a port, and then
the flow is bound, in both directions, to the public address with that port
converted to 16 bits, whether or not the port is in use. -/
theorem egress_never_drops (cfg : Config) (allocPort : AllocFn) (s : NatState)
    (pkt : Packet) (now : Int) (out : Outcome) (hsup : pkt.supported)
    (hout : PrivateToPublicTranslation cfg allocPort s pkt now = Except.ok out) :
    out.ret = true ∧
      ∀ p k, egressKey pkt = some (p, k) → s.table p k = none →
        ∃ port s0, allocPort s p now = some (port, s0) ∧
          out.st.table p k = some { addr := cfg.publicAddr, port := toUint16 port } ∧
          out.st.table p { addr := cfg.publicAddr, port := toUint16 port } = some k := by
  constructor
  · obtain ⟨hip, hp⟩ := hsup
    have hk : ∃ p k, egressKey pkt = some (p, k) := by
      unfold egressKey
      rcases hp with h | h | h <;> simp [hip, h, TCPNumber, UDPNumber, ICMPNumber]
    obtain ⟨p, k, hk⟩ := hk
    cases hfound : s.table p k with
    | none => exact (egress_miss cfg allocPort s pkt now p k out hk hfound hout).choose_spec.2.1
    | some Q =>
      rw [egress_hit cfg allocPort s pkt now p k Q hk hfound] at hout
      simp only [Except.ok.injEq] at hout
      rw [← hout]
  · intro p k hk hmiss
    obtain ⟨Q, hQ, _, _⟩ := egress_miss cfg allocPort s pkt now p k out hk hmiss hout
    obtain ⟨_, port, s0, hA, hQeq, _⟩ := allocate_some _ _ _ _ _ _ _ _ hQ
    refine ⟨port, s0, hA, ?_, ?_⟩
    · rw [← hQeq]; exact allocate_table_priv _ _ _ _ _ _ _ _ hQ
    · rw [← hQeq]; exact allocate_table_pub _ _ _ _ _ _ _ _ hQ

/-- The packet of 10.0.0.5:5000 is accepted and bound in the empty state. -/
theorem egress_never_drops_witness :
    tcpOut.supported ∧
      PrivateToPublicTranslation sampleCfg sampleAlloc emptyState tcpOut 0 =
        Except.ok { ret := true, pkt := egressRewrite sampleCfg tcpOut sampleQ,
                    st := boundState } ∧
      (true = true ∧
        ∀ p k, egressKey tcpOut = some (p, k) → emptyState.table p k = none →
          ∃ port s0, sampleAlloc emptyState p 0 = some (port, s0) ∧
            boundState.table p k =
              some { addr := sampleCfg.publicAddr, port := toUint16 port } ∧
            boundState.table p { addr := sampleCfg.publicAddr, port := toUint16 port } =
              some k) :=
  ⟨by decide, rfl,
    egress_never_drops sampleCfg sampleAlloc emptyState tcpOut 0
      { ret := true, pkt := egressRewrite sampleCfg tcpOut sampleQ, st := boundState }
      (by decide) rfl⟩

/-! ## Idempotent reuse -/

/-- C8. If an egress packet from private tuple `P` has been translated (to the
tuple `Q` the table then maps `P` to) and the next call is another egress
packet from `P`, the second packet is rewritten with the same `Q`, the session
table is unchanged, and no port is allocated: whatever the allocator, the only
change is the refreshed `lastused` of the slot of `Q`. -/
theorem idempotent_reuse (cfg : Config) (allocPort allocPort2 : AllocFn) (s : NatState)
    (pkt1 pkt2 : Packet) (t1 t2 : Int) (out1 : Outcome) (protocol : Nat) (P : Tuple)
    (hk1 : egressKey pkt1 = some (protocol, P)) (hk2 : egressKey pkt2 = some (protocol, P))
    (hout1 : PrivateToPublicTranslation cfg allocPort s pkt1 t1 = Except.ok out1) :
    ∃ Q, out1.st.table protocol P = some Q ∧ out1.ret = true ∧
      out1.pkt = egressRewrite cfg pkt1 Q ∧
      PrivateToPublicTranslation cfg allocPort2 out1.st pkt2 t2 =
        Except.ok { ret := true, pkt := egressRewrite cfg pkt2 Q,
                    st := { table := out1.st.table,
                            portmap := out1.st.portmap.setLastused protocol Q.port t2 } } := by
  cases hfound : s.table protocol P with
  | none =>
    obtain ⟨Q, hQ, hret, hpkt⟩ :=
      egress_miss cfg allocPort s pkt1 t1 protocol P out1 hk1 hfound hout1
    have htab := allocate_table_priv _ _ _ _ _ _ _ _ hQ
    exact ⟨Q, htab, hret, hpkt, egress_hit cfg allocPort2 out1.st pkt2 t2 protocol P Q hk2 htab⟩
  | some Q =>
    rw [egress_hit cfg allocPort s pkt1 t1 protocol P Q hk1 hfound] at hout1
    simp only [Except.ok.injEq] at hout1
    subst hout1
    exact ⟨Q, hfound, rfl, rfl, egress_hit cfg allocPort2 _ pkt2 t2 protocol P Q hk2 hfound⟩

/-- Two packets of 10.0.0.5:5000 in a row, at times 0 and 30; the second call
runs with the exhausted one-port allocator. -/
theorem idempotent_reuse_witness :
    ∃ Q, boundState.table 6 sampleP = some Q ∧ true = true ∧
      egressRewrite sampleCfg tcpOut sampleQ = egressRewrite sampleCfg tcpOut Q ∧
      PrivateToPublicTranslation sampleCfg tinyAlloc boundState tcpOut 30 =
        Except.ok { ret := true, pkt := egressRewrite sampleCfg tcpOut Q,
                    st := { table := boundState.table,
                            portmap := boundState.portmap.setLastused 6 Q.port 30 } } :=
  idempotent_reuse sampleCfg sampleAlloc tinyAlloc emptyState tcpOut tcpOut 0 30
    { ret := true, pkt := egressRewrite sampleCfg tcpOut sampleQ, st := boundState } 6 sampleP
    (by decide) (by decide) rfl

/-! ## Unsupported packets and ingress misses -/

/-- C9. A packet whose EtherType is not IPv4, or whose IPv4 protocol number is
not TCP, UDP or ICMP, is dropped by both translators; the packet, the session
table and the port registry are left as they were. -/
theorem unsupported_dropped (cfg : Config) (allocPort : AllocFn) (deleteConn : DeleteFn)
    (s : NatState) (pkt : Packet) (now : Int)
    (h : pkt.Ether.EtherType ≠ SwapBytesUint16 IPV4Number ∨
      (pkt.IPv4.NextProtoID ≠ TCPNumber ∧ pkt.IPv4.NextProtoID ≠ UDPNumber ∧
        pkt.IPv4.NextProtoID ≠ ICMPNumber)) :
    PublicToPrivateTranslation cfg deleteConn s pkt now =
        Except.ok { ret := false, pkt := pkt, st := s } ∧
      PrivateToPublicTranslation cfg allocPort s pkt now =
        Except.ok { ret := false, pkt := pkt, st := s } := by
  have hi : ingressKey pkt = none := by
    unfold ingressKey
    rcases h with h | ⟨h1, h2, h3⟩ <;> simp [*]
  have he : egressKey pkt = none := by
    unfold egressKey
    rcases h with h | ⟨h1, h2, h3⟩ <;> simp [*]
  exact ⟨ingressKey_none cfg deleteConn s pkt now hi, egressKey_none cfg allocPort s pkt now he⟩

/-- A GRE packet is dropped in both directions with the bound state untouched. -/
theorem unsupported_dropped_witness :
    PublicToPrivateTranslation sampleCfg deleteOldConnection boundState grePkt 5 =
        Except.ok { ret := false, pkt := grePkt, st := boundState } ∧
      PrivateToPublicTranslation sampleCfg sampleAlloc boundState grePkt 5 =
        Except.ok { ret := false, pkt := grePkt, st := boundState } :=
  unsupported_dropped sampleCfg sampleAlloc deleteOldConnection boundState grePkt 5
    (Or.inr (by decide))

/-- C10. An IPv4 TCP, UDP or ICMP packet whose destination key (destination
address with destination port or ICMP identifier) is not a key of
`table[protocol]` is dropped by `PublicToPrivateTranslation`, and the packet,
the session table and the port registry are left as they were. -/
theorem ingress_miss_dropped (cfg : Config) (deleteConn : DeleteFn) (s : NatState)
    (pkt : Packet) (now : Int) (protocol : Nat) (key : Tuple)
    (hkey : ingressKey pkt = some (protocol, key)) (hmiss : s.table protocol key = none) :
    PublicToPrivateTranslation cfg deleteConn s pkt now =
      Except.ok { ret := false, pkt := pkt, st := s } := by
  rw [ingressKey_some cfg deleteConn s pkt now protocol key hkey, hmiss]

/-- A reply to 203.0.113.1:40000 arriving in the empty state is dropped. -/
theorem ingress_miss_dropped_witness :
    ingressKey tcpBack = some (6, sampleQ) ∧ emptyState.table 6 sampleQ = none ∧
      PublicToPrivateTranslation sampleCfg deleteOldConnection emptyState tcpBack 5 =
        Except.ok { ret := false, pkt := tcpBack, st := emptyState } :=
  ⟨by decide, rfl,
    ingress_miss_dropped sampleCfg deleteOldConnection emptyState tcpBack 5 6 sampleQ
      (by decide) rfl⟩

/-! ## Protocol isolation -/

theorem allocate_other_protocol (allocPort : AllocFn) (s : NatState) (p1 p2 : Nat) (P : Tuple)
    (publicAddr : Nat) (now : Int) (Q : Tuple) (s1 : NatState) (hne : p2 ≠ p1)
    (h : allocateNewEgressConnection allocPort s p1 P publicAddr now = Except.ok (Q, s1)) :
    ∃ port s0, allocPort s p1 now = some (port, s0) ∧ s1.table p2 = s0.table p2 := by
  obtain ⟨_, port, s0, hA, _, rfl⟩ := allocate_some _ _ _ _ _ _ _ _ h
  refine ⟨port, s0, hA, ?_⟩
  funext k
  simp [Table.store, hne]

/-- C11. For distinct protocols `p1` and `p2`, creating a binding for `P` under
`p1` with `allocateNewEgressConnection` (port allocator as described by the
design) leaves `table[p2]` unchanged: a lookup of `P` or of its public tuple
`Q` in `table[p2]` returns what it returned before, and misses if it missed
before. -/
theorem protocol_isolation (portStart portEnd : Nat) (s : NatState) (p1 p2 : Nat) (P : Tuple)
    (publicAddr : Nat) (now : Int) (Q : Tuple) (s1 : NatState) (hne : p1 ≠ p2)
    (h : allocateNewEgressConnection (allocNewPort portStart portEnd) s p1 P publicAddr now =
      Except.ok (Q, s1)) :
    s1.table p2 = s.table p2 ∧ s1.table p2 P = s.table p2 P ∧ s1.table p2 Q = s.table p2 Q ∧
      (s.table p2 P = none → s1.table p2 P = none) ∧
      (s.table p2 Q = none → s1.table p2 Q = none) := by
  obtain ⟨port, s0, hA, hT⟩ :=
    allocate_other_protocol _ s p1 p2 P publicAddr now Q s1 (Ne.symm hne) h
  have hs : s0 = s := allocNewPort_state portStart portEnd s p1 now port s0 hA
  rw [hs] at hT
  refine ⟨hT, by rw [hT], by rw [hT], fun h0 => by rw [hT]; exact h0,
    fun h0 => by rw [hT]; exact h0⟩

/-- Binding 10.0.0.5:5000 under TCP leaves the UDP table as it was. -/
theorem protocol_isolation_witness :
    (6 : Nat) ≠ 17 ∧
      allocateNewEgressConnection (allocNewPort 40000 40002) emptyState 6 sampleP 3405803777 0 =
        Except.ok (sampleQ, boundState) ∧
      (boundState.table 17 = emptyState.table 17 ∧
        boundState.table 17 sampleP = emptyState.table 17 sampleP ∧
        boundState.table 17 sampleQ = emptyState.table 17 sampleQ ∧
        (emptyState.table 17 sampleP = none → boundState.table 17 sampleP = none) ∧
        (emptyState.table 17 sampleQ = none → boundState.table 17 sampleQ = none)) :=
  ⟨by decide, rfl,
    protocol_isolation 40000 40002 emptyState 6 17 sampleP 3405803777 0 sampleQ boundState
      (by decide) rfl⟩

/-! ## Indexing of the session table -/

/-- C17. The table has `UDPNumber + 1` entries, the dispatch hands on only the
protocols TCP, UDP and ICMP, each at most `UDPNumber`, and so neither
translator (nor `allocateNewEgressConnection` called from egress) ever indexes
`table[protocol]` out of range: ingress always returns, and egress never ends
in the out-of-range fault. -/
theorem table_index_in_bounds (cfg : Config) (allocPort : AllocFn) (deleteConn : DeleteFn)
    (s : NatState) (pkt : Packet) (now : Int) :
    tableLen = UDPNumber + 1 ∧
      (∀ p k, ingressKey pkt = some (p, k) →
        (p = TCPNumber ∨ p = UDPNumber ∨ p = ICMPNumber) ∧ p ≤ UDPNumber) ∧
      (∀ p k, egressKey pkt = some (p, k) →
        (p = TCPNumber ∨ p = UDPNumber ∨ p = ICMPNumber) ∧ p ≤ UDPNumber) ∧
      (∃ out, PublicToPrivateTranslation cfg deleteConn s pkt now = Except.ok out) ∧
      PrivateToPublicTranslation cfg allocPort s pkt now ≠
        Except.error Fault.indexOutOfRange := by
  refine ⟨rfl, ?_, ?_, ?_, ?_⟩
  · intro p k h
    unfold ingressKey at h
    split_ifs at h <;> simp at h <;> obtain ⟨rfl, _⟩ := h <;> decide
  · intro p k h
    unfold egressKey at h
    split_ifs at h <;> simp at h <;> obtain ⟨rfl, _⟩ := h <;> decide
  · cases hk : ingressKey pkt with
    | none => exact ⟨_, ingressKey_none cfg deleteConn s pkt now hk⟩
    | some pk => exact ⟨_, ingressKey_some cfg deleteConn s pkt now pk.1 pk.2 hk⟩
  · cases hk : egressKey pkt with
    | none => rw [egressKey_none cfg allocPort s pkt now hk]; simp
    | some pk =>
      obtain ⟨p, k⟩ := pk
      rw [egressKey_some cfg allocPort s pkt now p k hk]
      cases hfound : s.table p k with
      | some v => simp
      | none =>
        simp only
        unfold allocateNewEgressConnection
        rw [if_pos (egressKey_lt pkt p k hk)]
        cases allocPort s p now with
        | none => simp
        | some r => simp

/-- The reply `tcpBack` is dispatched to protocol 6, inside the table. -/
theorem table_index_in_bounds_witness :
    ingressKey tcpBack = some (6, sampleQ) ∧
      ((6 = TCPNumber ∨ 6 = UDPNumber ∨ 6 = ICMPNumber) ∧ 6 ≤ UDPNumber) :=
  ⟨by decide,
    (table_index_in_bounds sampleCfg sampleAlloc deleteOldConnection boundState tcpBack 1).2.1 6
      sampleQ (by decide)⟩

/-! ## Dropped packets -/

/-- C18. Whenever `PublicToPrivateTranslation` or `PrivateToPublicTranslation`
returns drop, the packet is the packet before the call: Ethernet MAC
addresses, IPv4 source and destination addresses, TCP/UDP source and
destination ports and ICMP identifier are untouched. -/
theorem dropped_not_rewritten (cfg : Config) (allocPort : AllocFn) (deleteConn : DeleteFn)
    (s : NatState) (pkt : Packet) (now : Int) :
    (∀ out, PublicToPrivateTranslation cfg deleteConn s pkt now = Except.ok out →
        out.ret = false → out.pkt = pkt) ∧
      (∀ out, PrivateToPublicTranslation cfg allocPort s pkt now = Except.ok out →
        out.ret = false → out.pkt = pkt) := by
  constructor
  · intro out hout hret
    cases hk : ingressKey pkt with
    | none =>
      rw [ingressKey_none cfg deleteConn s pkt now hk] at hout
      simp only [Except.ok.injEq] at hout
      rw [← hout]
    | some pk =>
      obtain ⟨p, k⟩ := pk
      rw [ingressKey_some cfg deleteConn s pkt now p k hk] at hout
      simp only [Except.ok.injEq] at hout
      subst hout
      cases hT : s.table p k with
      | none => simp only [hT]
      | some v =>
        simp only [hT] at hret ⊢
        by_cases hlt : now < (s.portmap p k.port).lastused + cfg.CONNECTION_TIMEOUT
        · simp [hlt] at hret
        · simp [hlt]
  · intro out hout hret
    cases hk : egressKey pkt with
    | none =>
      rw [egressKey_none cfg allocPort s pkt now hk] at hout
      simp only [Except.ok.injEq] at hout
      rw [← hout]
    | some pk =>
      obtain ⟨p, k⟩ := pk
      rw [egressKey_some cfg allocPort s pkt now p k hk] at hout
      split at hout
      · simp at hout
      · simp only [Except.ok.injEq] at hout
        rw [← hout] at hret
        simp at hret

/-- The reply dropped in the empty state and the GRE packet dropped on egress
are returned as they came. -/
theorem dropped_not_rewritten_witness :
    PublicToPrivateTranslation sampleCfg deleteOldConnection emptyState tcpBack 5 =
        Except.ok { ret := false, pkt := tcpBack, st := emptyState } ∧
      PrivateToPublicTranslation sampleCfg sampleAlloc emptyState grePkt 5 =
        Except.ok { ret := false, pkt := grePkt, st := emptyState } ∧
      tcpBack = tcpBack ∧ grePkt = grePkt :=
  ⟨rfl, rfl,
    (dropped_not_rewritten sampleCfg sampleAlloc deleteOldConnection emptyState tcpBack 5).1
      { ret := false, pkt := tcpBack, st := emptyState } rfl rfl,
    (dropped_not_rewritten sampleCfg sampleAlloc deleteOldConnection emptyState grePkt 5).2
      { ret := false, pkt := grePkt, st := emptyState } rfl rfl⟩

/-! ## The checksum test helper -/

/-- C19. `CheckPacketChecksums` returns true if and only if either the packet
is IPv4, its stored IPv4 header checksum equals `CalculateIPv4Checksum`, and
its protocol is UDP or TCP with the stored L4 checksum equal to the matching
`CalculateIPv4UDPChecksum` / `CalculateIPv4TCPChecksum`, or the packet is IPv6
and its protocol is UDP or TCP with the stored L4 checksum equal to the
matching IPv6 checksum; for every other EtherType or protocol it returns
false. -/
theorem checkPacketChecksums_iff (c : Checksums) (p : CksumPacket) :
    (CheckPacketChecksums c p = true ↔
        (p.Ether.EtherType = SwapBytesUint16 IPV4Number ∧
          p.IPv4.HdrChecksum = c.CalculateIPv4Checksum p ∧
          ((p.IPv4.NextProtoID = UDPNumber ∧
              p.UDP.DgramCksum = c.CalculateIPv4UDPChecksum p) ∨
            (p.IPv4.NextProtoID = TCPNumber ∧ p.TCP.Cksum = c.CalculateIPv4TCPChecksum p))) ∨
        (p.Ether.EtherType = SwapBytesUint16 IPV6Number ∧
          ((p.IPv6.Proto = UDPNumber ∧ p.UDP.DgramCksum = c.CalculateIPv6UDPChecksum p) ∨
            (p.IPv6.Proto = TCPNumber ∧ p.TCP.Cksum = c.CalculateIPv6TCPChecksum p)))) ∧
      (p.Ether.EtherType ≠ SwapBytesUint16 IPV4Number →
        p.Ether.EtherType ≠ SwapBytesUint16 IPV6Number → CheckPacketChecksums c p = false) ∧
      (p.Ether.EtherType = SwapBytesUint16 IPV4Number → p.IPv4.NextProtoID ≠ UDPNumber →
        p.IPv4.NextProtoID ≠ TCPNumber → CheckPacketChecksums c p = false) ∧
      (p.Ether.EtherType = SwapBytesUint16 IPV6Number → p.IPv6.Proto ≠ UDPNumber →
        p.IPv6.Proto ≠ TCPNumber → CheckPacketChecksums c p = false) := by
  have h46 : SwapBytesUint16 IPV4Number ≠ SwapBytesUint16 IPV6Number := by decide
  have hut : UDPNumber ≠ TCPNumber := by decide
  refine ⟨?_, ?_, ?_, ?_⟩
  · unfold CheckPacketChecksums
    by_cases h4 : p.Ether.EtherType = SwapBytesUint16 IPV4Number
    · have h6 : p.Ether.EtherType ≠ SwapBytesUint16 IPV6Number := by rw [h4]; exact h46
      by_cases hu : p.IPv4.NextProtoID = UDPNumber
      · have ht : p.IPv4.NextProtoID ≠ TCPNumber := by rw [hu]; exact hut
        simp only [h4, h6, hu, ht, if_true, if_false]
        by_cases h1 : p.IPv4.HdrChecksum = c.CalculateIPv4Checksum p <;>
          by_cases h2 : p.UDP.DgramCksum = c.CalculateIPv4UDPChecksum p <;>
          simp [h1, h2, h46, hut]
      · by_cases ht : p.IPv4.NextProtoID = TCPNumber
        · simp only [h4, h6, hu, ht, if_true, if_false]
          by_cases h1 : p.IPv4.HdrChecksum = c.CalculateIPv4Checksum p <;>
            by_cases h2 : p.TCP.Cksum = c.CalculateIPv4TCPChecksum p <;>
            simp [h1, h2, h46, hut.symm]
        · simp [h4, h6, hu, ht, h46]
    · by_cases h6 : p.Ether.EtherType = SwapBytesUint16 IPV6Number
      · by_cases hu : p.IPv6.Proto = UDPNumber
        · have ht : p.IPv6.Proto ≠ TCPNumber := by rw [hu]; exact hut
          by_cases h2 : p.UDP.DgramCksum = c.CalculateIPv6UDPChecksum p <;>
            simp [h4, h6, hu, h2, h46.symm, hut]
        · by_cases ht : p.IPv6.Proto = TCPNumber
          · by_cases h2 : p.TCP.Cksum = c.CalculateIPv6TCPChecksum p <;>
              simp [h4, h6, hu, ht, h2, h46.symm, hut.symm]
          · simp [h4, h6, hu, ht, h46.symm]
      · simp [h4, h6]
  · intro h4 h6
    unfold CheckPacketChecksums
    simp [h4, h6]
  · intro h4 hu ht
    unfold CheckPacketChecksums
    simp [h4, hu, ht]
  · intro h6 hu ht
    have h4 : p.Ether.EtherType ≠ SwapBytesUint16 IPV4Number := by rw [h6]; exact h46.symm
    unfold CheckPacketChecksums
    simp [h6, hu, ht, h46.symm]

/-! ## Egress rewrite -/

theorem allocate_ok (allocPort : AllocFn) (s : NatState) (protocol : Nat) (P : Tuple)
    (publicAddr : Nat) (now : Int) (hlen : protocol < tableLen)
    (hA : ∃ r s0, allocPort s protocol now = some (r, s0)) :
    ∃ Q s1, allocateNewEgressConnection allocPort s protocol P publicAddr now =
      Except.ok (Q, s1) := by
  obtain ⟨r, s0, hA⟩ := hA
  unfold allocateNewEgressConnection
  rw [if_pos hlen, hA]
  exact ⟨_, _, rfl⟩

theorem egressRewrite_frame (cfg : Config) (pkt : Packet) (value : Tuple) :
    (egressRewrite cfg pkt value).Ether.DAddr = cfg.publicDstMAC ∧
      (egressRewrite cfg pkt value).Ether.SAddr = cfg.PublicMAC ∧
      (egressRewrite cfg pkt value).wireDstPort = pkt.wireDstPort := by
  unfold egressRewrite Packet.wireDstPort
  split_ifs <;> simp_all

/-- C12, as stated, fails. With the one-port range `[40000, 40001)`, the UDP
packet of 10.0.0.7:6000 is bound to port 40000; the next UDP packet, from
10.0.0.8:6001, is IPv4 UDP, misses the table, finds no free port, and the call
ends with the failure of the allocator instead of returning accept. -/
theorem egress_rewrite_counterexample :
    PrivateToPublicTranslation sampleCfg tinyAlloc emptyState udpOut 0 =
        Except.ok { ret := true, pkt := egressRewrite sampleCfg udpOut sampleQ,
                    st := udpState } ∧
      udpOut2.Ether.EtherType = SwapBytesUint16 IPV4Number ∧
      udpOut2.IPv4.NextProtoID = UDPNumber ∧
      udpState.table 17 { addr := 167772168, port := 6001 } = none ∧
      PrivateToPublicTranslation sampleCfg tinyAlloc udpState udpOut2 5 =
        Except.error Fault.allocFailed :=
  ⟨rfl, by decide, by decide, rfl, rfl⟩

/-- C12, amended. For every IPv4 TCP or UDP packet whose private tuple is in the
session table, or for which the allocator hands back a port,
`PrivateToPublicTranslation` returns accept and afterwards the Ethernet
destination MAC is the configured public-side destination MAC, the Ethernet
source MAC is `PublicMAC`, the IPv4 source address is the address of the tuple
`Q` the session table maps the packet's private tuple to after the call, the
wire source port is the byte swap of the port of `Q`, and the IPv4 destination
address and the L4 destination port are unchanged. -/
theorem egress_rewrite (cfg : Config) (allocPort : AllocFn) (s : NatState) (pkt : Packet)
    (now : Int)
    (hip : pkt.Ether.EtherType = SwapBytesUint16 IPV4Number)
    (hproto : pkt.IPv4.NextProtoID = TCPNumber ∨ pkt.IPv4.NextProtoID = UDPNumber)
    (hA : s.table pkt.IPv4.NextProtoID
        { addr := pkt.IPv4.SrcAddr, port := SwapBytesUint16 pkt.wireSrcPort } = none →
      ∃ r s0, allocPort s pkt.IPv4.NextProtoID now = some (r, s0)) :
    ∃ out Q, PrivateToPublicTranslation cfg allocPort s pkt now = Except.ok out ∧
      out.ret = true ∧
      out.pkt.Ether.DAddr = cfg.publicDstMAC ∧ out.pkt.Ether.SAddr = cfg.PublicMAC ∧
      out.st.table pkt.IPv4.NextProtoID
        { addr := pkt.IPv4.SrcAddr, port := SwapBytesUint16 pkt.wireSrcPort } = some Q ∧
      out.pkt.IPv4.SrcAddr = Q.addr ∧ out.pkt.wireSrcPort = SwapBytesUint16 Q.port ∧
      out.pkt.IPv4.DstAddr = pkt.IPv4.DstAddr ∧ out.pkt.wireDstPort = pkt.wireDstPort := by
  have hk := egressKey_tcp_udp pkt hip hproto
  have hfields : ∀ Q : Tuple,
      (egressRewrite cfg pkt Q).Ether.DAddr = cfg.publicDstMAC ∧
      (egressRewrite cfg pkt Q).Ether.SAddr = cfg.PublicMAC ∧
      (egressRewrite cfg pkt Q).IPv4.SrcAddr = Q.addr ∧
      (egressRewrite cfg pkt Q).wireSrcPort = SwapBytesUint16 Q.port ∧
      (egressRewrite cfg pkt Q).IPv4.DstAddr = pkt.IPv4.DstAddr ∧
      (egressRewrite cfg pkt Q).wireDstPort = pkt.wireDstPort := fun Q =>
    ⟨(egressRewrite_frame cfg pkt Q).1, (egressRewrite_frame cfg pkt Q).2.1,
      (egressRewrite_srcAddr cfg pkt Q).1, egressRewrite_wireSrcPort cfg pkt Q hproto,
      (egressRewrite_srcAddr cfg pkt Q).2.1, (egressRewrite_frame cfg pkt Q).2.2⟩
  cases hfound : s.table pkt.IPv4.NextProtoID
      { addr := pkt.IPv4.SrcAddr, port := SwapBytesUint16 pkt.wireSrcPort } with
  | some Q =>
    obtain ⟨h1, h2, h3, h4, h5, h6⟩ := hfields Q
    exact ⟨_, Q, egress_hit cfg allocPort s pkt now _ _ Q hk hfound, rfl, h1, h2, hfound,
      h3, h4, h5, h6⟩
  | none =>
    obtain ⟨Q, s1, hQ⟩ := allocate_ok allocPort s pkt.IPv4.NextProtoID
      { addr := pkt.IPv4.SrcAddr, port := SwapBytesUint16 pkt.wireSrcPort } cfg.publicAddr now
      (egressKey_lt pkt _ _ hk) (hA hfound)
    have hres : PrivateToPublicTranslation cfg allocPort s pkt now =
        Except.ok { ret := true, pkt := egressRewrite cfg pkt Q, st := s1 } := by
      rw [egressKey_some cfg allocPort s pkt now _ _ hk, hfound]
      simp only [hQ]
    obtain ⟨h1, h2, h3, h4, h5, h6⟩ := hfields Q
    exact ⟨_, Q, hres, rfl, h1, h2, allocate_table_priv _ _ _ _ _ _ _ _ hQ, h3, h4, h5, h6⟩

/-- The first packet of 10.0.0.5:5000 in the empty state, where the allocator
has a free port. -/
theorem egress_rewrite_witness :
    ∃ out Q, PrivateToPublicTranslation sampleCfg sampleAlloc emptyState tcpOut 0 =
        Except.ok out ∧
      out.ret = true ∧
      out.pkt.Ether.DAddr = sampleCfg.publicDstMAC ∧ out.pkt.Ether.SAddr = sampleCfg.PublicMAC ∧
      out.st.table tcpOut.IPv4.NextProtoID
        { addr := tcpOut.IPv4.SrcAddr, port := SwapBytesUint16 tcpOut.wireSrcPort } = some Q ∧
      out.pkt.IPv4.SrcAddr = Q.addr ∧ out.pkt.wireSrcPort = SwapBytesUint16 Q.port ∧
      out.pkt.IPv4.DstAddr = tcpOut.IPv4.DstAddr ∧ out.pkt.wireDstPort = tcpOut.wireDstPort :=
  egress_rewrite sampleCfg sampleAlloc emptyState tcpOut 0 rfl (Or.inl rfl)
    (fun _ => ⟨40000, emptyState, rfl⟩)

/-! ## Activity refresh -/

/-- An accepted ingress packet leaves `lastused` of the registry slot of its
lookup key's port at the time of the call. -/
theorem ingress_refresh (cfg : Config) (deleteConn : DeleteFn) (s : NatState) (pkt : Packet)
    (now : Int) (p : Nat) (k : Tuple) (out : Outcome)
    (hk : ingressKey pkt = some (p, k))
    (hout : PublicToPrivateTranslation cfg deleteConn s pkt now = Except.ok out)
    (hret : out.ret = true) :
    (out.st.portmap p k.port).lastused = now := by
  rw [ingressKey_some cfg deleteConn s pkt now p k hk] at hout
  simp only [Except.ok.injEq] at hout
  subst hout
  cases hT : s.table p k with
  | none => simp [hT] at hret
  | some v =>
    simp only [hT] at hret ⊢
    by_cases hlt : now < (s.portmap p k.port).lastused + cfg.CONNECTION_TIMEOUT
    · simp [hlt, PortMap.setLastused]
    · simp [hlt] at hret

/-- A returning egress call for the tuple `k` accepts and leaves `lastused` of
the slot of the port of the tuple `Q` the table then maps `k` to at the time of
the call. -/
theorem egress_refresh (cfg : Config) (allocPort : AllocFn) (s : NatState) (pkt : Packet)
    (now : Int) (p : Nat) (k Q : Tuple) (out : Outcome)
    (hk : egressKey pkt = some (p, k))
    (hout : PrivateToPublicTranslation cfg allocPort s pkt now = Except.ok out)
    (hQ : out.st.table p k = some Q) :
    out.ret = true ∧ (out.st.portmap p Q.port).lastused = now := by
  cases hfound : s.table p k with
  | none =>
    obtain ⟨Q1, hQ1, hret, _⟩ := egress_miss cfg allocPort s pkt now p k out hk hfound hout
    have h1 := allocate_table_priv _ _ _ _ _ _ _ _ hQ1
    rw [hQ] at h1
    obtain rfl := Option.some.inj h1
    exact ⟨hret, (allocate_lastused _ _ _ _ _ _ _ _ hQ1).1⟩
  | some v =>
    rw [egress_hit cfg allocPort s pkt now p k v hk hfound] at hout
    simp only [Except.ok.injEq] at hout
    subst hout
    simp only at hQ
    rw [hfound] at hQ
    obtain rfl := Option.some.inj hQ
    exact ⟨rfl, by simp [PortMap.setLastused]⟩

/-- A call that creates the binding `P -> Q` under `p` is an egress miss of the
key `(p, P)` for which `allocateNewEgressConnection` returned `Q`. -/
theorem newBinding_single (cfg : Config) (allocPort : AllocFn) (s : NatState) (pkt : Packet)
    (now : Int) (p : Nat) (P Q : Tuple)
    (h : newBinding cfg allocPort s pkt now = [{ protocol := p, priv := P, pub := Q }]) :
    egressKey pkt = some (p, P) ∧ s.table p P = none ∧
      ∃ s1, allocateNewEgressConnection allocPort s p P cfg.publicAddr now =
        Except.ok (Q, s1) := by
  unfold newBinding at h
  cases hk : egressKey pkt with
  | none => simp [hk] at h
  | some pk =>
    obtain ⟨p1, key⟩ := pk
    simp only [hk] at h
    cases hfound : s.table p1 key with
    | some v => simp [hfound] at h
    | none =>
      simp only [hfound] at h
      cases hA : allocateNewEgressConnection allocPort s p1 key cfg.publicAddr now with
      | error e => simp [hA] at h
      | ok r =>
        obtain ⟨pub, s1⟩ := r
        simp only [hA, List.cons.injEq, Binding.mk.injEq, and_true] at h
        obtain ⟨rfl, rfl, rfl⟩ := h
        exact ⟨rfl, hfound, s1, hA⟩

/-- C14, as stated, fails. In `boundState` the only binding is
10.0.0.5:5000 <-> 203.0.113.1:40000, with public port 40000. The egress packet
`pubSrcPkt`, whose source tuple is the public tuple, hits the reverse entry of
that binding and is accepted at time 2; the slot the call refreshes is the one
of the private port 5000, and `lastused` of slot 40000 is still 0. -/
theorem activity_refresh_counterexample :
    run sampleCfg sampleAlloc deleteOldConnection emptyState [Op.egress tcpOut 0] =
        some (boundState, [{ protocol := 6, priv := sampleP, pub := sampleQ }]) ∧
      bound boundState 6 sampleP sampleQ ∧
      PrivateToPublicTranslation sampleCfg sampleAlloc boundState pubSrcPkt 2 =
        Except.ok pubSrcOut ∧
      pubSrcOut.ret = true ∧
      (pubSrcOut.st.portmap 6 sampleQ.port).lastused = 0 ∧
      (pubSrcOut.st.portmap 6 sampleQ.port).lastused ≠ 2 ∧
      (pubSrcOut.st.portmap 6 sampleP.port).lastused = 2 :=
  ⟨rfl, ⟨rfl, rfl, rfl⟩, rfl, rfl, by decide, by decide, by decide⟩

/-- C14, amended. For every packet a translator accepts on behalf of a binding
`P <-> Q` under protocol `p`, with public tuple `Q` and public port `Q.port`,
that addresses the binding from its own side: an ingress packet whose
destination tuple is `Q` (hit that is still alive), an egress packet whose
source tuple is `P` (hit), or the egress packet whose miss creates the binding.
When the call returns, `lastused` of the registry slot `portmap[p][Q.port]`
equals the current time, and it is not earlier than before the call if the
clock has not gone back. -/
theorem activity_refresh (cfg : Config) (allocPort : AllocFn) (deleteConn : DeleteFn)
    (s : NatState) (pkt : Packet) (now : Int) (p : Nat) (P Q : Tuple) :
    (bound s p P Q → ingressKey pkt = some (p, Q) →
        ∀ out, PublicToPrivateTranslation cfg deleteConn s pkt now = Except.ok out →
          out.ret = true →
          (out.st.portmap p Q.port).lastused = now ∧
            ((s.portmap p Q.port).lastused ≤ now →
              (s.portmap p Q.port).lastused ≤ (out.st.portmap p Q.port).lastused)) ∧
      (bound s p P Q → egressKey pkt = some (p, P) →
        ∀ out, PrivateToPublicTranslation cfg allocPort s pkt now = Except.ok out →
          out.ret = true ∧ (out.st.portmap p Q.port).lastused = now ∧
            ((s.portmap p Q.port).lastused ≤ now →
              (s.portmap p Q.port).lastused ≤ (out.st.portmap p Q.port).lastused)) ∧
      (newBinding cfg allocPort s pkt now = [{ protocol := p, priv := P, pub := Q }] →
        ∀ out, PrivateToPublicTranslation cfg allocPort s pkt now = Except.ok out →
          out.ret = true ∧ (out.st.portmap p Q.port).lastused = now ∧
            ((s.portmap p Q.port).lastused ≤ now →
              (s.portmap p Q.port).lastused ≤ (out.st.portmap p Q.port).lastused)) := by
  refine ⟨?_, ?_, ?_⟩
  · intro _ hk out hout hret
    have hnow := ingress_refresh cfg deleteConn s pkt now p Q out hk hout hret
    exact ⟨hnow, fun h => by rw [hnow]; exact h⟩
  · intro hb hk out hout
    have hst : out.st.table p P = some Q := by
      rw [egress_hit cfg allocPort s pkt now p P Q hk hb.1] at hout
      simp only [Except.ok.injEq] at hout
      rw [← hout]
      exact hb.1
    obtain ⟨hret, hnow⟩ := egress_refresh cfg allocPort s pkt now p P Q out hk hout hst
    exact ⟨hret, hnow, fun h => by rw [hnow]; exact h⟩
  · intro hnew out hout
    obtain ⟨hk, hmiss, s1, hA⟩ := newBinding_single cfg allocPort s pkt now p P Q hnew
    obtain ⟨Q1, hQ1, _, _⟩ := egress_miss cfg allocPort s pkt now p P out hk hmiss hout
    rw [hA] at hQ1
    simp only [Except.ok.injEq, Prod.mk.injEq] at hQ1
    obtain ⟨rfl, rfl⟩ := hQ1
    have hst := allocate_table_priv _ _ _ _ _ _ _ _ hA
    obtain ⟨hret, hnow⟩ := egress_refresh cfg allocPort s pkt now p P Q out hk hout hst
    exact ⟨hret, hnow, fun h => by rw [hnow]; exact h⟩

/-- The three accepting paths on the binding 10.0.0.5:5000 <->
203.0.113.1:40000: the packet that creates it at time 0, its repetition at time
30, and the reply at time 99, each leaving `lastused` of slot 40000 at the time
of the call. -/
theorem activity_refresh_witness :
    bound boundState 6 sampleP sampleQ ∧
      (PublicToPrivateTranslation sampleCfg deleteOldConnection boundState tcpBack 99 =
          Except.ok replyOut ∧
        ((replyOut.st.portmap 6 sampleQ.port).lastused = 99 ∧
          ((boundState.portmap 6 sampleQ.port).lastused ≤ 99 →
            (boundState.portmap 6 sampleQ.port).lastused ≤
              (replyOut.st.portmap 6 sampleQ.port).lastused))) ∧
      (PrivateToPublicTranslation sampleCfg sampleAlloc boundState tcpOut 30 =
          Except.ok repeatedOut ∧
        (repeatedOut.ret = true ∧ (repeatedOut.st.portmap 6 sampleQ.port).lastused = 30 ∧
          ((boundState.portmap 6 sampleQ.port).lastused ≤ 30 →
            (boundState.portmap 6 sampleQ.port).lastused ≤
              (repeatedOut.st.portmap 6 sampleQ.port).lastused))) ∧
      (newBinding sampleCfg sampleAlloc emptyState tcpOut 0 =
          [{ protocol := 6, priv := sampleP, pub := sampleQ }] ∧
        PrivateToPublicTranslation sampleCfg sampleAlloc emptyState tcpOut 0 =
          Except.ok firstOut ∧
        (firstOut.ret = true ∧ (firstOut.st.portmap 6 sampleQ.port).lastused = 0 ∧
          ((emptyState.portmap 6 sampleQ.port).lastused ≤ 0 →
            (emptyState.portmap 6 sampleQ.port).lastused ≤
              (firstOut.st.portmap 6 sampleQ.port).lastused))) :=
  ⟨⟨rfl, rfl, rfl⟩,
    ⟨rfl,
      (activity_refresh sampleCfg sampleAlloc deleteOldConnection boundState tcpBack 99 6 sampleP
        sampleQ).1 ⟨rfl, rfl, rfl⟩ (by decide) replyOut rfl rfl⟩,
    ⟨rfl,
      (activity_refresh sampleCfg sampleAlloc deleteOldConnection boundState tcpOut 30 6 sampleP
        sampleQ).2.1 ⟨rfl, rfl, rfl⟩ (by decide) repeatedOut rfl⟩,
    ⟨by decide, rfl,
      (activity_refresh sampleCfg sampleAlloc deleteOldConnection emptyState tcpOut 0 6 sampleP
        sampleQ).2.2 (by decide) firstOut rfl⟩⟩

/-! ## Byte order of lookup keys -/

/-- C15, as stated, fails for the address. The reply `tcpBack` carries the
destination address 203.0.113.1 as the header value 3405803777, whose
conversion to host order is 24182987. The table of `boundState` has the key
with the unconverted value and none with the converted one, and the ingress
translator hits: the key it builds holds the address as it stands in the
header. The rewrite writes the mapped address 167772165 as it is stored. -/
theorem address_byte_order_counterexample :
    tcpBack.IPv4.DstAddr = 3405803777 ∧ hostOrderUint32 3405803777 = 24182987 ∧
      boundState.table 6 { addr := hostOrderUint32 3405803777, port := 40000 } = none ∧
      boundState.table 6 { addr := 3405803777, port := 40000 } = some sampleP ∧
      PublicToPrivateTranslation sampleCfg deleteOldConnection boundState tcpBack 1 =
        Except.ok { ret := true, pkt := ingressRewrite sampleCfg tcpBack sampleP,
                    st := { table := boundState.table,
                            portmap := boundState.portmap.setLastused 6 40000 1 } } ∧
      (ingressRewrite sampleCfg tcpBack sampleP).IPv4.DstAddr = sampleP.addr ∧
      (ingressRewrite sampleCfg tcpBack sampleP).IPv4.DstAddr ≠ hostOrderUint32 sampleP.addr :=
  ⟨rfl, by decide, rfl, rfl, rfl, by decide, by decide⟩

/-- C15, amended. For every IPv4 packet, the key built by either translator
holds the IPv4 address exactly as it stands in the header field (destination
on ingress, source on egress, no byte-order conversion), holds the byte swap
of the wire port for TCP and UDP, and holds the ICMP identifier without a byte
swap; the rewrite writes the mapped address as stored and the byte swap of the
mapped port for TCP and UDP, and leaves the ICMP identifier alone. -/
theorem key_byte_order (cfg : Config) (allocPort : AllocFn) (deleteConn : DeleteFn)
    (s : NatState) (pkt : Packet) (now : Int) (value : Tuple)
    (hip : pkt.Ether.EtherType = SwapBytesUint16 IPV4Number) :
    (pkt.IPv4.NextProtoID = TCPNumber →
        PublicToPrivateTranslation cfg deleteConn s pkt now =
            Except.ok (ingressLookup cfg deleteConn s pkt now TCPNumber
              { addr := pkt.IPv4.DstAddr, port := SwapBytesUint16 pkt.TCP.DstPort }) ∧
          PrivateToPublicTranslation cfg allocPort s pkt now =
            egressLookup cfg allocPort s pkt now TCPNumber
              { addr := pkt.IPv4.SrcAddr, port := SwapBytesUint16 pkt.TCP.SrcPort } ∧
          (ingressRewrite cfg pkt value).TCP.DstPort = SwapBytesUint16 value.port ∧
          (egressRewrite cfg pkt value).TCP.SrcPort = SwapBytesUint16 value.port) ∧
      (pkt.IPv4.NextProtoID = UDPNumber →
        PublicToPrivateTranslation cfg deleteConn s pkt now =
            Except.ok (ingressLookup cfg deleteConn s pkt now UDPNumber
              { addr := pkt.IPv4.DstAddr, port := SwapBytesUint16 pkt.UDP.DstPort }) ∧
          PrivateToPublicTranslation cfg allocPort s pkt now =
            egressLookup cfg allocPort s pkt now UDPNumber
              { addr := pkt.IPv4.SrcAddr, port := SwapBytesUint16 pkt.UDP.SrcPort } ∧
          (ingressRewrite cfg pkt value).UDP.DstPort = SwapBytesUint16 value.port ∧
          (egressRewrite cfg pkt value).UDP.SrcPort = SwapBytesUint16 value.port) ∧
      (pkt.IPv4.NextProtoID = ICMPNumber →
        PublicToPrivateTranslation cfg deleteConn s pkt now =
            Except.ok (ingressLookup cfg deleteConn s pkt now ICMPNumber
              { addr := pkt.IPv4.DstAddr, port := pkt.ICMP.Identifier }) ∧
          PrivateToPublicTranslation cfg allocPort s pkt now =
            egressLookup cfg allocPort s pkt now ICMPNumber
              { addr := pkt.IPv4.SrcAddr, port := pkt.ICMP.Identifier } ∧
          (ingressRewrite cfg pkt value).ICMP.Identifier = pkt.ICMP.Identifier ∧
          (egressRewrite cfg pkt value).ICMP.Identifier = pkt.ICMP.Identifier) ∧
      (ingressRewrite cfg pkt value).IPv4.DstAddr = value.addr ∧
      (egressRewrite cfg pkt value).IPv4.SrcAddr = value.addr := by
  refine ⟨fun h => ?_, fun h => ?_, fun h => ?_, (ingressRewrite_dstAddr cfg pkt value).1,
    (egressRewrite_srcAddr cfg pkt value).1⟩
  · have hi : ingressKey pkt = some (TCPNumber,
        { addr := pkt.IPv4.DstAddr, port := SwapBytesUint16 pkt.TCP.DstPort }) := by
      unfold ingressKey; simp [hip, h]
    have he : egressKey pkt = some (TCPNumber,
        { addr := pkt.IPv4.SrcAddr, port := SwapBytesUint16 pkt.TCP.SrcPort }) := by
      unfold egressKey; simp [hip, h]
    refine ⟨ingressKey_some cfg deleteConn s pkt now _ _ hi,
      egressKey_some cfg allocPort s pkt now _ _ he, ?_, ?_⟩
    · unfold ingressRewrite; simp [h]
    · unfold egressRewrite; simp [h]
  · have hi : ingressKey pkt = some (UDPNumber,
        { addr := pkt.IPv4.DstAddr, port := SwapBytesUint16 pkt.UDP.DstPort }) := by
      unfold ingressKey; simp [hip, h, UDPNumber, TCPNumber]
    have he : egressKey pkt = some (UDPNumber,
        { addr := pkt.IPv4.SrcAddr, port := SwapBytesUint16 pkt.UDP.SrcPort }) := by
      unfold egressKey; simp [hip, h, UDPNumber, TCPNumber]
    refine ⟨ingressKey_some cfg deleteConn s pkt now _ _ hi,
      egressKey_some cfg allocPort s pkt now _ _ he, ?_, ?_⟩
    · unfold ingressRewrite; simp [h, UDPNumber, TCPNumber]
    · unfold egressRewrite; simp [h, UDPNumber, TCPNumber]
  · have hi : ingressKey pkt = some (ICMPNumber,
        { addr := pkt.IPv4.DstAddr, port := pkt.ICMP.Identifier }) := by
      unfold ingressKey; simp [hip, h, UDPNumber, TCPNumber, ICMPNumber]
    have he : egressKey pkt = some (ICMPNumber,
        { addr := pkt.IPv4.SrcAddr, port := pkt.ICMP.Identifier }) := by
      unfold egressKey; simp [hip, h, UDPNumber, TCPNumber, ICMPNumber]
    exact ⟨ingressKey_some cfg deleteConn s pkt now _ _ hi,
      egressKey_some cfg allocPort s pkt now _ _ he,
      by rw [(ingressRewrite_dstAddr cfg pkt value).2.2.2],
      by rw [(egressRewrite_srcAddr cfg pkt value).2.2.2.2]⟩

/-- The reply `tcpBack` in the bound state: the key is the header address with
the swapped port. -/
theorem key_byte_order_witness :
    PublicToPrivateTranslation sampleCfg deleteOldConnection boundState tcpBack 1 =
        Except.ok (ingressLookup sampleCfg deleteOldConnection boundState tcpBack 1 TCPNumber
          { addr := tcpBack.IPv4.DstAddr, port := SwapBytesUint16 tcpBack.TCP.DstPort }) ∧
      PrivateToPublicTranslation sampleCfg sampleAlloc boundState tcpBack 1 =
        egressLookup sampleCfg sampleAlloc boundState tcpBack 1 TCPNumber
          { addr := tcpBack.IPv4.SrcAddr, port := SwapBytesUint16 tcpBack.TCP.SrcPort } ∧
      (ingressRewrite sampleCfg tcpBack sampleP).TCP.DstPort = SwapBytesUint16 sampleP.port ∧
      (egressRewrite sampleCfg tcpBack sampleP).TCP.SrcPort = SwapBytesUint16 sampleP.port :=
  (key_byte_order sampleCfg sampleAlloc deleteOldConnection boundState tcpBack 1 sampleP rfl).1
    rfl

/-! ## Source address of accepted egress packets -/

theorem deleteOldConnection_entry (s : NatState) (p port q : Nat) (k v : Tuple)
    (h : (deleteOldConnection s p port).table q k = some v) : s.table q k = some v := by
  unfold deleteOldConnection at h
  cases hT : s.table p { addr := (s.portmap p port).addr, port := port } with
  | none => simpa [hT] using h
  | some w =>
    simp only [hT, Table.delete] at h
    split_ifs at h
    exact h

theorem ingress_entry (cfg : Config) (deleteConn : DeleteFn)
    (hdel : ∀ s p port q k v, (deleteConn s p port).table q k = some v → s.table q k = some v)
    (s : NatState) (pkt : Packet) (now : Int) (out : Outcome)
    (hout : PublicToPrivateTranslation cfg deleteConn s pkt now = Except.ok out)
    (q : Nat) (k v : Tuple) (h : out.st.table q k = some v) :
    s.table q k = some v := by
  cases hk : ingressKey pkt with
  | none =>
    rw [ingressKey_none cfg deleteConn s pkt now hk] at hout
    simp only [Except.ok.injEq] at hout
    subst hout
    exact h
  | some pk =>
    obtain ⟨p, key⟩ := pk
    rw [ingressKey_some cfg deleteConn s pkt now p key hk] at hout
    simp only [Except.ok.injEq] at hout
    subst hout
    split at h
    · exact h
    · split_ifs at h
      · exact h
      · exact hdel _ _ _ _ _ _ h

theorem egress_entry (cfg : Config) (allocPort : AllocFn)
    (halloc : ∀ s p now r s1, allocPort s p now = some (r, s1) →
      ∀ q k v, s1.table q k = some v → s.table q k = some v)
    (s : NatState) (pkt : Packet) (now : Int) (out : Outcome)
    (hout : PrivateToPublicTranslation cfg allocPort s pkt now = Except.ok out)
    (q : Nat) (k v : Tuple) (h : out.st.table q k = some v) :
    s.table q k = some v ∨
      ∃ b ∈ newBinding cfg allocPort s pkt now, b.protocol = q ∧ b.pub.addr = cfg.publicAddr ∧
        ((b.priv = k ∧ b.pub = v) ∨ (b.pub = k ∧ b.priv = v)) := by
  cases hk : egressKey pkt with
  | none =>
    rw [egressKey_none cfg allocPort s pkt now hk] at hout
    simp only [Except.ok.injEq] at hout
    subst hout
    exact Or.inl h
  | some pk =>
    obtain ⟨p, key⟩ := pk
    cases hfound : s.table p key with
    | some w =>
      rw [egress_hit cfg allocPort s pkt now p key w hk hfound] at hout
      simp only [Except.ok.injEq] at hout
      subst hout
      exact Or.inl h
    | none =>
      obtain ⟨Q, hQ, _, _⟩ := egress_miss cfg allocPort s pkt now p key out hk hfound hout
      have hnb : newBinding cfg allocPort s pkt now =
          [{ protocol := p, priv := key, pub := Q }] := by
        unfold newBinding
        simp [hk, hfound, hQ]
      have haddr := (allocate_lastused _ _ _ _ _ _ _ _ hQ).2.2.1
      obtain ⟨_, port, s0, hA, _, hst⟩ := allocate_some _ _ _ _ _ _ _ _ hQ
      rw [hst] at h
      simp only [Table.store] at h
      by_cases h1 : q = p ∧ k = Q
      · obtain ⟨rfl, rfl⟩ := h1
        simp only [and_self, if_true, Option.some.injEq] at h
        exact Or.inr ⟨_, by rw [hnb]; exact List.mem_singleton.mpr rfl, rfl, haddr,
          Or.inr ⟨rfl, h⟩⟩
      · by_cases h2 : q = p ∧ k = key
        · obtain ⟨rfl, rfl⟩ := h2
          have h3 : ¬ k = Q := fun hkQ => h1 ⟨rfl, hkQ⟩
          simp only [h3, and_false, and_self, if_true, if_false, Option.some.injEq] at h
          exact Or.inr ⟨_, by rw [hnb]; exact List.mem_singleton.mpr rfl, rfl, haddr,
            Or.inl ⟨rfl, h⟩⟩
        · simp only [h1, h2, if_false] at h
          exact Or.inl (halloc s p now port s0 hA q k v h)

theorem run_entry (cfg : Config) (allocPort : AllocFn) (deleteConn : DeleteFn)
    (halloc : ∀ s p now r s1, allocPort s p now = some (r, s1) →
      ∀ q k v, s1.table q k = some v → s.table q k = some v)
    (hdel : ∀ s p port q k v, (deleteConn s p port).table q k = some v → s.table q k = some v)
    (ops : List Op) : ∀ (s0 s : NatState) (bs : List Binding),
      run cfg allocPort deleteConn s0 ops = some (s, bs) →
      ∀ q k v, s.table q k = some v →
        s0.table q k = some v ∨
          ∃ b ∈ bs, b.protocol = q ∧ b.pub.addr = cfg.publicAddr ∧
            ((b.priv = k ∧ b.pub = v) ∨ (b.pub = k ∧ b.priv = v)) := by
  induction ops with
  | nil =>
    intro s0 s bs hrun q k v h
    simp only [run, Option.some.injEq, Prod.mk.injEq] at hrun
    obtain ⟨rfl, _⟩ := hrun
    exact Or.inl h
  | cons op ops ih =>
    intro s0 s bs hrun q k v h
    cases op with
    | ingress pkt now =>
      simp only [run] at hrun
      cases hout : PublicToPrivateTranslation cfg deleteConn s0 pkt now with
      | error e => simp [hout] at hrun
      | ok out =>
        simp only [hout] at hrun
        rcases ih _ s bs hrun q k v h with h1 | h1
        · exact Or.inl (ingress_entry cfg deleteConn hdel s0 pkt now out hout q k v h1)
        · exact Or.inr h1
    | egress pkt now =>
      simp only [run] at hrun
      cases hout : PrivateToPublicTranslation cfg allocPort s0 pkt now with
      | error e => simp [hout] at hrun
      | ok out =>
        simp only [hout] at hrun
        cases hrest : run cfg allocPort deleteConn out.st ops with
        | none => simp [hrest] at hrun
        | some r =>
          obtain ⟨s1, bs1⟩ := r
          simp only [hrest, Option.some.injEq, Prod.mk.injEq] at hrun
          obtain ⟨rfl, rfl⟩ := hrun
          rcases ih out.st s1 bs1 hrest q k v h with h1 | ⟨b, hb, hb2⟩
          · rcases egress_entry cfg allocPort halloc s0 pkt now out hout q k v h1 with
              h2 | ⟨b, hb, hb2⟩
            · exact Or.inl h2
            · exact Or.inr ⟨b, List.mem_append_left _ hb, hb2⟩
          · exact Or.inr ⟨b, List.mem_append_right _ hb, hb2⟩

/-- C16, as stated, fails. From the empty state, the packet of 10.0.0.5:5000 is
bound to 203.0.113.1:40000. An egress packet whose source tuple is that public
tuple hits the reverse entry of the same table, is accepted, and leaves with
the private address 10.0.0.5 (167772165) as its source address, not with the
public address. -/
theorem egress_source_counterexample :
    run sampleCfg sampleAlloc deleteOldConnection emptyState [Op.egress tcpOut 0] =
        some (boundState, [{ protocol := 6, priv := sampleP, pub := sampleQ }]) ∧
      PrivateToPublicTranslation sampleCfg sampleAlloc boundState pubSrcPkt 1 =
        Except.ok { ret := true, pkt := egressRewrite sampleCfg pubSrcPkt sampleP,
                    st := { table := boundState.table,
                            portmap := boundState.portmap.setLastused 6 5000 1 } } ∧
      (egressRewrite sampleCfg pubSrcPkt sampleP).IPv4.SrcAddr = 167772165 ∧
      (egressRewrite sampleCfg pubSrcPkt sampleP).IPv4.SrcAddr ≠ sampleCfg.publicAddr :=
  ⟨rfl, rfl, by decide, by decide⟩

/-- C16, amended. In every state reachable from the empty session table by any
sequence of egress and ingress translations with a fixed configured public
address `A`, with a port allocator and an eviction routine that add or change
no table entry, every packet that `PrivateToPublicTranslation` accepts and
whose source tuple is not itself a public tuple returned by an egress binding
of that protocol has IPv4 source address `A` when the call returns. -/
theorem egress_source_is_public (cfg : Config) (allocPort : AllocFn) (deleteConn : DeleteFn)
    (halloc : ∀ s p now r s1, allocPort s p now = some (r, s1) →
      ∀ q k v, s1.table q k = some v → s.table q k = some v)
    (hdel : ∀ s p port q k v, (deleteConn s p port).table q k = some v → s.table q k = some v)
    (portmap0 : PortMap) (ops : List Op) (s : NatState) (bs : List Binding)
    (hrun : run cfg allocPort deleteConn { table := fun _ _ => none, portmap := portmap0 } ops =
      some (s, bs))
    (pkt : Packet) (now : Int) (out : Outcome)
    (hout : PrivateToPublicTranslation cfg allocPort s pkt now = Except.ok out)
    (hacc : out.ret = true)
    (hnot : ∀ p k, egressKey pkt = some (p, k) → ∀ b ∈ bs, b.protocol = p → b.pub ≠ k) :
    out.pkt.IPv4.SrcAddr = cfg.publicAddr := by
  cases hk : egressKey pkt with
  | none =>
    rw [egressKey_none cfg allocPort s pkt now hk] at hout
    simp only [Except.ok.injEq] at hout
    rw [← hout] at hacc
    simp at hacc
  | some pk =>
    obtain ⟨p, k⟩ := pk
    cases hfound : s.table p k with
    | none =>
      obtain ⟨Q, hQ, _, hpkt⟩ := egress_miss cfg allocPort s pkt now p k out hk hfound hout
      rw [hpkt, (egressRewrite_srcAddr cfg pkt Q).1]
      exact (allocate_lastused _ _ _ _ _ _ _ _ hQ).2.2.1
    | some v =>
      rw [egress_hit cfg allocPort s pkt now p k v hk hfound] at hout
      simp only [Except.ok.injEq] at hout
      rw [← hout]
      simp only
      rw [(egressRewrite_srcAddr cfg pkt v).1]
      rcases run_entry cfg allocPort deleteConn halloc hdel ops _ s bs hrun p k v hfound with
        h | ⟨b, hb, hp, haddr, hb2⟩
      · simp at h
      · rcases hb2 with ⟨_, hv⟩ | ⟨hpub, _⟩
        · rw [← hv]; exact haddr
        · exact absurd hpub (hnot p k hk b hb hp)

/-- After 10.0.0.5:5000 is bound, its next packet leaves with 203.0.113.1. -/
theorem egress_source_is_public_witness :
    run sampleCfg sampleAlloc deleteOldConnection emptyState [Op.egress tcpOut 0] =
        some (boundState, [{ protocol := 6, priv := sampleP, pub := sampleQ }]) ∧
      PrivateToPublicTranslation sampleCfg sampleAlloc boundState tcpOut 30 =
        Except.ok { ret := true, pkt := egressRewrite sampleCfg tcpOut sampleQ,
                    st := { table := boundState.table,
                            portmap := boundState.portmap.setLastused 6 40000 30 } } ∧
      (egressRewrite sampleCfg tcpOut sampleQ).IPv4.SrcAddr = sampleCfg.publicAddr :=
  ⟨rfl, rfl,
    egress_source_is_public sampleCfg sampleAlloc deleteOldConnection
      (fun s p now r s1 h q k v hk => by
        rw [allocNewPort_state 40000 40002 s p now r s1 h] at hk; exact hk)
      deleteOldConnection_entry emptyState.portmap [Op.egress tcpOut 0] boundState
      [{ protocol := 6, priv := sampleP, pub := sampleQ }] rfl tcpOut 30
      { ret := true, pkt := egressRewrite sampleCfg tcpOut sampleQ,
        st := { table := boundState.table,
                portmap := boundState.portmap.setLastused 6 40000 30 } }
      rfl rfl
      (fun p k h => by
        have h0 : egressKey tcpOut = some (6, sampleP) := by decide
        rw [h0] at h
        simp only [Option.some.injEq, Prod.mk.injEq] at h
        obtain ⟨rfl, rfl⟩ := h
        decide)⟩

/-- An IPv4 UDP packet with matching checksums passes; an ARP frame does not. -/
theorem checkPacketChecksums_iff_witness :
    CheckPacketChecksums sampleChecksums goodUdp4 = true ∧
      CheckPacketChecksums sampleChecksums arpFrame = false :=
  ⟨(checkPacketChecksums_iff sampleChecksums goodUdp4).1.mpr
      (Or.inl ⟨by decide, by decide, Or.inl ⟨by decide, by decide⟩⟩),
    (checkPacketChecksums_iff sampleChecksums arpFrame).2.1 (by decide) (by decide)⟩

end NAT
